import Mathlib

/-!
free_fleet: client request handling and manager task ids.

A shallow embedding of `free_fleet::Client::Implementation` (src/client/Client.cpp)
with the properties of its request handlers, completion callbacks, tick and loop, of
starting a client (`Client::run`, `Client::start_async`), of the request API and the
factory of the manager as the specification and the tests describe them, and of the
graph utilities of src/manager/utilities/utilities.cpp.

The graph utilities are embedded twice: over the real numbers, for the properties
that are stated for exact arithmetic, and in the arithmetic of the C++ type `double`
(namespace `binary64`), in which the program computes them. The period of the
client loop is computed in `double` as well.

C++ objects with mutable fields become records that are passed in and returned;
calls made on the command handle and on the middleware become lists of outputs.
-/

namespace free_fleet

/-- `free_fleet::TaskId`, an unsigned 32-bit integer. The client only stores and
compares task ids, so they are carried as natural numbers. -/
abbrev TaskId := Nat

namespace messages

/-- `messages::Location`: a named map, a 2D coordinate and a yaw. The client never
computes on the numbers, it only forwards them. -/
structure Location where
  map_name : String
  x : Rat
  y : Rat
  yaw : Rat
deriving DecidableEq

/-- `messages::Waypoint`: an index into the navigation graph and a location. -/
structure Waypoint where
  index : Nat
  location : Location
deriving DecidableEq

/-- Modelled from the spec: `messages::RobotMode` is declared outside the sources at
hand; the spec lists its variants. -/
inductive RobotMode where
  | Idle
  | Moving
  | Paused
  | Charging
  | Docking
  | Emergency
  | AdapterError
  | Cleaning
  | Unknown
deriving DecidableEq

/-- Modelled from the spec: `messages::RobotState` is declared outside the sources at
hand. The fields are in the order in which `run_once` of Client.cpp fills them; the
third one is initialised there with the client's `std::optional<TaskId>` itself, so
it holds an optional task id. -/
structure RobotState where
  name : String
  model : String
  task_id : Option TaskId
  mode : RobotMode
  battery_percent : Rat
  location : Location
  target_path_waypoint_index : Nat
deriving DecidableEq

/-- `messages::PauseRequest`. -/
structure PauseRequest where
  robot_name : String
  task_id : TaskId
deriving DecidableEq

/-- `messages::ResumeRequest`. -/
structure ResumeRequest where
  robot_name : String
  task_id : TaskId
deriving DecidableEq

/-- `messages::DockRequest`. -/
structure DockRequest where
  robot_name : String
  task_id : TaskId
  dock_name : String
deriving DecidableEq

/-- `messages::NavigationRequest`. -/
structure NavigationRequest where
  robot_name : String
  task_id : TaskId
  path : List Waypoint
deriving DecidableEq

/-- `messages::RelocalizationRequest`. -/
structure RelocalizationRequest where
  robot_name : String
  task_id : TaskId
  location : Location
  last_visited_waypoint_index : Nat
deriving DecidableEq

/-- The five request variants that travel from the manager to a client. -/
inductive Request where
  | pause (request : PauseRequest)
  | resume (request : ResumeRequest)
  | dock (request : DockRequest)
  | navigation (request : NavigationRequest)
  | relocalization (request : RelocalizationRequest)
deriving DecidableEq

/-- The robot a request is addressed to. -/
def Request.robot_name : Request → String
  | Request.pause request => request.robot_name
  | Request.resume request => request.robot_name
  | Request.dock request => request.robot_name
  | Request.navigation request => request.robot_name
  | Request.relocalization request => request.robot_name

/-- The task id a request carries. -/
def Request.task_id : Request → TaskId
  | Request.pause request => request.task_id
  | Request.resume request => request.task_id
  | Request.dock request => request.task_id
  | Request.navigation request => request.task_id
  | Request.relocalization request => request.task_id

end messages

namespace Client

/-- The fields of `Client::Implementation` that Client.cpp reads and writes.
`task_id` is a `std::optional` (the tests call `has_value()` on it), `task_ids` an
`std::unordered_set`. The three handle fields record whether the pointer is
non-null; the objects behind them are the environment of the client. -/
structure Implementation where
  robot_name : String
  robot_model : String
  task_id : Option TaskId
  task_ids : Finset TaskId
  started : Bool
  command_handle : Bool
  status_handle : Bool
  middleware : Bool
deriving DecidableEq

/-- `CommandHandle::RequestCompleted`, a `std::function<void()>`. The closures the
handlers make capture `this`, so invoking one transforms the client state of the
moment of the invocation. -/
abbrev RequestCompleted := Implementation → Implementation

/-- One call received by the command handle, with its arguments. -/
inductive CommandCall where
  | stop
  | resume
  | dock (dock_name : String) (callback : RequestCompleted)
  | follow_new_path (path : List messages.Waypoint) (callback : RequestCompleted)
  | relocalize (location : messages.Location) (callback : RequestCompleted)

/-- The completion callback a command-handle call carries, if it carries one. -/
def CommandCall.callback? : CommandCall → Option RequestCompleted
  | CommandCall.stop => none
  | CommandCall.resume => none
  | CommandCall.dock _ callback => some callback
  | CommandCall.follow_new_path _ callback => some callback
  | CommandCall.relocalize _ callback => some callback

/-- Modelled from the spec: StatusHandle.hpp is not among the sources at hand. The
values a status source returns when it is read during one tick; the spec gives the
target waypoint index as a signed 64-bit integer, a negative one meaning that there
is no target. Integers outside that range are not excluded here. -/
structure StatusHandle where
  mode : messages.RobotMode
  battery_percent : Rat
  location : messages.Location
  target_path_waypoint_index : Int
deriving DecidableEq

namespace Implementation

/-- `Client::Implementation::connected`. -/
def connected (self : Implementation) : Bool :=
  self.command_handle && self.status_handle && self.middleware

/-- Modelled from the spec: `is_valid_request` is defined in internal_Client.hpp,
which is not among the sources at hand. The spec's request-validity predicate: a
request is accepted iff (a) its robot name is this client's, (b) its task id is not
in the seen set and (c) its task id is not 0. -/
def is_valid_request (self : Implementation) (robot_name : String) (task_id : TaskId) :
    Bool :=
  decide (robot_name = self.robot_name) && decide (task_id ∉ self.task_ids) &&
    decide (task_id ≠ 0)

/-- `Client::Implementation::run_once`: builds one RobotState and hands it to the
middleware. No field of the client is assigned. The optional `task_id` goes into the
state as it is; the target index is narrowed by `static_cast<uint32_t>`. -/
def run_once (self : Implementation) (status_handle : StatusHandle) :
    Implementation × List messages.RobotState :=
  let new_state : messages.RobotState := {
    name := self.robot_name
    model := self.robot_model
    task_id := self.task_id
    mode := status_handle.mode
    battery_percent := status_handle.battery_percent
    location := status_handle.location
    target_path_waypoint_index :=
      (status_handle.target_path_waypoint_index % 4294967296).toNat }
  (self, [new_state])

/-- `Client::Implementation::handle_pause_request`. -/
def handle_pause_request (self : Implementation) (request : messages.PauseRequest) :
    Implementation × List CommandCall :=
  if !self.is_valid_request request.robot_name request.task_id then
    (self, [])
  else
    let self1 := { self with task_ids := insert request.task_id self.task_ids }
    let self2 := { self1 with task_id := some request.task_id }
    (self2, [CommandCall.stop])

/-- `Client::Implementation::handle_resume_request`. -/
def handle_resume_request (self : Implementation) (request : messages.ResumeRequest) :
    Implementation × List CommandCall :=
  if !self.is_valid_request request.robot_name request.task_id then
    (self, [])
  else
    let self1 := { self with task_ids := insert request.task_id self.task_ids }
    let self2 := { self1 with task_id := some request.task_id }
    (self2, [CommandCall.resume])

/-- `Client::Implementation::handle_dock_request`. The callback is the closure
`[this]() { task_id = 0; }`: it stores the value 0 in the optional. -/
def handle_dock_request (self : Implementation) (request : messages.DockRequest) :
    Implementation × List CommandCall :=
  if !self.is_valid_request request.robot_name request.task_id then
    (self, [])
  else
    let self1 := { self with task_ids := insert request.task_id self.task_ids }
    let self2 := { self1 with task_id := some request.task_id }
    let callback : RequestCompleted := fun this => { this with task_id := some 0 }
    (self2, [CommandCall.dock request.dock_name callback])

/-- `Client::Implementation::handle_navigation_request`. -/
def handle_navigation_request (self : Implementation)
    (request : messages.NavigationRequest) : Implementation × List CommandCall :=
  if !self.is_valid_request request.robot_name request.task_id then
    (self, [])
  else
    let self1 := { self with task_ids := insert request.task_id self.task_ids }
    let self2 := { self1 with task_id := some request.task_id }
    let callback : RequestCompleted := fun this => { this with task_id := some 0 }
    (self2, [CommandCall.follow_new_path request.path callback])

/-- `Client::Implementation::handle_relocalization_request`. -/
def handle_relocalization_request (self : Implementation)
    (request : messages.RelocalizationRequest) : Implementation × List CommandCall :=
  if !self.is_valid_request request.robot_name request.task_id then
    (self, [])
  else
    let self1 := { self with task_ids := insert request.task_id self.task_ids }
    let self2 := { self1 with task_id := some request.task_id }
    let callback : RequestCompleted := fun this => { this with task_id := some 0 }
    (self2, [CommandCall.relocalize request.location callback])

end Implementation

/-- `Client::make`: absent when a name is empty or a handle is null, otherwise a
client holding the arguments. The remaining fields are those of a default
`Implementation()`: internal_Client.hpp is not among the sources at hand, and the
spec and the tests (`!impl.task_id.has_value()` right after `make`) give a current
task id that is absent, an empty seen set and a client that is not started. -/
def make (robot_name robot_model : String)
    (command_handle status_handle middleware : Bool) : Option Implementation :=
  if robot_name.isEmpty then none
  else if robot_model.isEmpty then none
  else if !command_handle then none
  else if !status_handle then none
  else if !middleware then none
  else
    some {
      robot_name := robot_name
      robot_model := robot_model
      task_id := none
      task_ids := ∅
      started := false
      command_handle := command_handle
      status_handle := status_handle
      middleware := middleware }

/-- Delivery of a request by the middleware: `set_callbacks` binds the callback of
each request variant to the handler of that variant. -/
def Implementation.handle_request (self : Implementation) :
    messages.Request → Implementation × List CommandCall
  | messages.Request.pause request => self.handle_pause_request request
  | messages.Request.resume request => self.handle_resume_request request
  | messages.Request.dock request => self.handle_dock_request request
  | messages.Request.navigation request => self.handle_navigation_request request
  | messages.Request.relocalization request => self.handle_relocalization_request request

/-- The client together with its environment: the calls the command handle has
received, each with the task id of the request whose handler made it, the states
handed to the middleware, and the ids whose completion the driver has reported. -/
structure World where
  impl : Implementation
  command_calls : List (TaskId × CommandCall)
  sent_states : List messages.RobotState
  completed : List TaskId

/-- What can happen to a client: the middleware delivers a request, the driver
invokes the completion callback it was handed for a task, or the loop ticks (with
the values the status handle returns at that tick). -/
inductive Event where
  | request (request : messages.Request)
  | completion (task_id : TaskId)
  | run_once (status_handle : StatusHandle)

/-- The completion callback the driver holds for a task id, if it was handed one. -/
def World.callback_for (w : World) (task_id : TaskId) : Option RequestCompleted :=
  w.command_calls.findSome? fun call =>
    if call.1 = task_id then call.2.callback? else none

/-- One event applied to the client and its environment. A completion for a task
the driver holds no callback for cannot happen and changes nothing. -/
def World.step (w : World) : Event → World
  | Event.request request =>
    let result := w.impl.handle_request request
    { w with
      impl := result.1
      command_calls := w.command_calls ++ result.2.map fun call => (request.task_id, call) }
  | Event.completion task_id =>
    match w.callback_for task_id with
    | some callback => { w with impl := callback w.impl, completed := task_id :: w.completed }
    | none => w
  | Event.run_once status_handle =>
    let result := w.impl.run_once status_handle
    { w with impl := result.1, sent_states := w.sent_states ++ result.2 }

/-- A sequence of events applied in order. -/
def World.run (w : World) (events : List Event) : World :=
  events.foldl World.step w

/-- A client as `make` returns it, in an environment where nothing has happened. -/
def World.fresh (impl : Implementation) : World :=
  { impl := impl, command_calls := [], sent_states := [], completed := [] }

end Client

namespace Manager

/-- Modelled from the spec: Manager.cpp and internal_Manager.hpp are not among the
sources at hand. The part of the manager its request API uses: the names in the
robot registry, the positions of the graph waypoints (indexed from 0), the
relocalization threshold, the task-id counter (a `u32` that starts at 0) and the
requests handed to the server middleware; and what the factory sets: the fleet name
and the started flag. -/
structure Implementation where
  robots : List String
  graph : List (Rat × Rat)
  relocalization_threshold : Rat
  current_task_id : TaskId
  sent_requests : List messages.Request
  fleet_name : String
  started : Bool
deriving DecidableEq

namespace Implementation

/-- Modelled from the spec: task-id allocation, "a single `u32` counter starting at
0, pre-incremented on every successful request". The spec leaves the step past
4294967295 undefined, except that it must not produce 0 ("treat as unreachable or
wrap to 1"): here the id after 4294967295 is 1. -/
def next_task_id (self : Implementation) : TaskId :=
  if self.current_task_id < 4294967295 then self.current_task_id + 1 else 1

/-- Modelled from the spec: request issuance "attaches the freshly allocated TaskId
and hands the request to the server middleware"; the caller gets the id. -/
def issue (self : Implementation) (request : TaskId → messages.Request) :
    Implementation × Option TaskId :=
  let task_id := self.next_task_id
  ({ self with
      current_task_id := task_id
      sent_requests := self.sent_requests ++ [request task_id] }, some task_id)

/-- Modelled from the spec: whether the distance from graph waypoint `index` to the
location exceeds the relocalization threshold. Distances are Euclidean; the
comparison is made on squares, which decides the same thing since a distance is
never negative. An index outside the graph has no distance. -/
def too_far (self : Implementation) (index : Nat) (location : messages.Location) :
    Bool :=
  match self.graph.get? index with
  | none => true
  | some p =>
    decide (self.relocalization_threshold < 0 ∨
      self.relocalization_threshold ^ 2 < (p.1 - location.x) ^ 2 + (p.2 - location.y) ^ 2)

/-- Modelled from the spec: `request_pause(name)` gives a new TaskId, or absent when
the robot is unknown. -/
def request_pause (self : Implementation) (robot_name : String) :
    Implementation × Option TaskId :=
  if robot_name ∉ self.robots then (self, none)
  else self.issue fun task_id => messages.Request.pause ⟨robot_name, task_id⟩

/-- Modelled from the spec: `request_resume(name)` gives a new TaskId, or absent
when the robot is unknown. -/
def request_resume (self : Implementation) (robot_name : String) :
    Implementation × Option TaskId :=
  if robot_name ∉ self.robots then (self, none)
  else self.issue fun task_id => messages.Request.resume ⟨robot_name, task_id⟩

/-- Modelled from the spec: `request_dock(name, dock_name)` gives a new TaskId, or
absent when the robot is unknown or the dock name is empty. -/
def request_dock (self : Implementation) (robot_name dock_name : String) :
    Implementation × Option TaskId :=
  if robot_name ∉ self.robots then (self, none)
  else if dock_name.isEmpty then (self, none)
  else self.issue fun task_id => messages.Request.dock ⟨robot_name, task_id, dock_name⟩

/-- Modelled from the spec: `request_navigation(name, path)` gives a new TaskId, or
absent when the robot is unknown, the path is empty or a waypoint of the path has an
index that is not below the number of graph waypoints. -/
def request_navigation (self : Implementation) (robot_name : String)
    (path : List messages.Waypoint) : Implementation × Option TaskId :=
  if robot_name ∉ self.robots then (self, none)
  else if path.isEmpty then (self, none)
  else if path.any fun waypoint => decide (self.graph.length ≤ waypoint.index) then (self, none)
  else self.issue fun task_id => messages.Request.navigation ⟨robot_name, task_id, path⟩

/-- Modelled from the spec: `request_relocalization(name, loc, last_wp_idx)` gives a
new TaskId, or absent when the robot is unknown, `last_wp_idx` is not below the
number of graph waypoints, or the distance from that graph waypoint to `loc` exceeds
the relocalization threshold. -/
def request_relocalization (self : Implementation) (robot_name : String)
    (location : messages.Location) (last_visited_waypoint_index : Nat) :
    Implementation × Option TaskId :=
  if robot_name ∉ self.robots then (self, none)
  else if self.graph.length ≤ last_visited_waypoint_index then (self, none)
  else if self.too_far last_visited_waypoint_index location then (self, none)
  else self.issue fun task_id =>
    messages.Request.relocalization ⟨robot_name, task_id, location, last_visited_waypoint_index⟩

end Implementation

/-- One call of the manager's request API, with its arguments. -/
inductive Call where
  | request_pause (robot_name : String)
  | request_resume (robot_name : String)
  | request_dock (robot_name dock_name : String)
  | request_navigation (robot_name : String) (path : List messages.Waypoint)
  | request_relocalization (robot_name : String) (location : messages.Location)
      (last_visited_waypoint_index : Nat)
deriving DecidableEq

/-- One API call made on a manager: the manager afterwards and what the caller gets. -/
def Implementation.call (self : Implementation) : Call → Implementation × Option TaskId
  | Call.request_pause robot_name => self.request_pause robot_name
  | Call.request_resume robot_name => self.request_resume robot_name
  | Call.request_dock robot_name dock_name => self.request_dock robot_name dock_name
  | Call.request_navigation robot_name path => self.request_navigation robot_name path
  | Call.request_relocalization robot_name location index =>
    self.request_relocalization robot_name location index

end Manager

/-- The request variants whose handler hands a completion callback to the command
handle: dock, navigation and relocalization. -/
def messages.Request.reports_completion : messages.Request → Bool
  | messages.Request.pause _ => false
  | messages.Request.resume _ => false
  | messages.Request.dock _ => true
  | messages.Request.navigation _ => true
  | messages.Request.relocalization _ => true

namespace Client

/-- Requests delivered one after the other, no completion callback being invoked in
between: the client afterwards. -/
def Implementation.handle_requests (self : Implementation)
    (requests : List messages.Request) : Implementation :=
  requests.foldl (fun s request => (s.handle_request request).1) self

/-- Every completion callback the driver holds is the closure
`[this]() { task_id = 0; }` that the handlers make. -/
def World.CallbacksClear (w : World) : Prop :=
  ∀ call ∈ w.command_calls, ∀ callback, call.2.callback? = some callback →
    ∀ s : Implementation, callback s = { s with task_id := some 0 }

/-- The bookkeeping the handlers maintain: each logged call was made for an id of
the seen set, only ids of the seen set are reported complete, and a current task id
other than 0 is a seen id whose completion has not been reported. -/
def World.Consistent (w : World) : Prop :=
  (∀ call ∈ w.command_calls, call.1 ∈ w.impl.task_ids) ∧
  (∀ task_id ∈ w.completed, task_id ∈ w.impl.task_ids) ∧
  (∀ task_id, w.impl.task_id = some task_id →
    task_id = 0 ∨ (task_id ∈ w.impl.task_ids ∧ task_id ∉ w.completed))

/-- The client of test_Client.cpp as `make` returns it. -/
def mock_client : Implementation :=
  { robot_name := "mock_robot"
    robot_model := "mock_robot_model"
    task_id := none
    task_ids := ∅
    started := false
    command_handle := true
    status_handle := true
    middleware := true }

/-- The location the test middleware puts in its relocalization requests. -/
def test_location : messages.Location :=
  { map_name := "test_map", x := 0, y := 0, yaw := 0 }

/-- The five requests of "Receiving multiple requests" in test_Client.cpp. -/
def test_requests : List messages.Request :=
  [ messages.Request.dock ⟨"mock_robot", 1, "mock_dock"⟩,
    messages.Request.pause ⟨"mock_robot", 2⟩,
    messages.Request.resume ⟨"mock_robot", 3⟩,
    messages.Request.navigation ⟨"mock_robot", 4, []⟩,
    messages.Request.relocalization ⟨"mock_robot", 5, test_location, 0⟩ ]

/-- Status readings for the examples: an idle robot at the test location. -/
def test_status : StatusHandle :=
  { mode := messages.RobotMode.Idle
    battery_percent := 1
    location := test_location
    target_path_waypoint_index := 0 }

/-- A history for the examples that follows the acceptance of task 1: its completion
is reported, the loop ticks, a pause request with id 2 arrives. -/
def test_events : List Event :=
  [ Event.completion 1,
    Event.run_once test_status,
    Event.request (messages.Request.pause ⟨"mock_robot", 2⟩) ]

end Client

namespace Manager

/-- The manager of "Testing manager API with dummy robots" in test_Manager.cpp:
three registered robots, six graph waypoints, the default threshold of 10 m, and no
task id issued yet. -/
def test_manager : Implementation :=
  { robots := ["test_robot_1", "test_robot_2", "test_robot_3"]
    graph := [(0, 0), (10, 0), (-10, 0), (0, 10), (0, -10), (100, 100)]
    relocalization_threshold := 10
    current_task_id := 0
    sent_requests := []
    fleet_name := "test_fleet"
    started := false }

/-- A location on the test level. -/
def test_level_location (x y : Rat) : messages.Location :=
  { map_name := "test_level", x := x, y := y, yaw := 0 }

/-- A default-constructed `messages::Waypoint`, as the tests pass it. -/
def default_waypoint : messages.Waypoint :=
  { index := 0, location := { map_name := "", x := 0, y := 0, yaw := 0 } }

end Manager

/-- `Eigen::Vector2d`, with coordinates taken in the real numbers, for the
properties of utilities.cpp that are stated for exact arithmetic; `binary64.Vector2d`
has the coordinates of type `double`. -/
structure Vector2d where
  x : ℝ
  y : ℝ

namespace Vector2d

/-- Coefficient-wise difference, `a - b`. -/
instance : Sub Vector2d := ⟨fun a b => ⟨a.x - b.x, a.y - b.y⟩⟩

/-- Coefficient-wise sum, `a + b`. -/
instance : Add Vector2d := ⟨fun a b => ⟨a.x + b.x, a.y + b.y⟩⟩

/-- Product of a scalar and a vector, `s * a`. -/
instance : HMul ℝ Vector2d Vector2d := ⟨fun s a => ⟨s * a.x, s * a.y⟩⟩

/-- Quotient of a vector by a scalar, `a / s`. -/
noncomputable instance : HDiv Vector2d ℝ Vector2d := ⟨fun a s => ⟨a.x / s, a.y / s⟩⟩

/-- `a.dot(b)`. -/
def dot (a b : Vector2d) : ℝ :=
  a.x * b.x + a.y * b.y

/-- `a.norm()`, the Euclidean length. -/
noncomputable def norm (a : Vector2d) : ℝ :=
  Real.sqrt (a.x ^ 2 + a.y ^ 2)

/-- The z component of the cross product of two plane vectors. -/
def cross (a b : Vector2d) : ℝ :=
  a.x * b.y - a.y * b.x

end Vector2d

namespace agv

/-- What the utilities read of a `rmf_traffic::agv::Graph::Waypoint`: the name of its
map and `get_location()`. -/
structure Waypoint where
  map_name : String
  get_location : Vector2d

/-- One end of a lane, `rmf_traffic::agv::Graph::Lane::Node`. -/
structure Node where
  waypoint_index : Nat

/-- A directed lane, `rmf_traffic::agv::Graph::Lane`. -/
structure Lane where
  entry : Node
  exit : Node

/-- What the utilities read of a `rmf_traffic::agv::Graph`: its waypoints, indexed
from 0 in the order they were added, and its lanes. -/
structure Graph where
  waypoints : List Waypoint
  lanes : List Lane

/-- `Graph::num_waypoints`. -/
def Graph.num_waypoints (graph : Graph) : Nat :=
  graph.waypoints.length

/-- `Graph::get_waypoint`; absent for an index outside the graph, where the library
throws. -/
def Graph.get_waypoint (graph : Graph) (index : Nat) : Option Waypoint :=
  graph.waypoints.get? index

end agv

namespace manager

/-- `manager::distance_to_waypoint` of utilities.cpp, over the reals. -/
noncomputable def distance_to_waypoint (waypoint : agv.Waypoint)
    (coordinates : Vector2d) : ℝ :=
  let p := waypoint.get_location
  (p - coordinates).norm

/-- `manager::distance_to_lane` of utilities.cpp, over the reals; absent when an end
of the lane is not a waypoint of the graph. -/
noncomputable def distance_to_lane (lane : agv.Lane) (graph : agv.Graph)
    (coordinates : Vector2d) : Option ℝ :=
  match graph.get_waypoint lane.entry.waypoint_index,
      graph.get_waypoint lane.exit.waypoint_index with
  | some entry_wp, some exit_wp =>
    let p0 := entry_wp.get_location
    let p1 := exit_wp.get_location
    let lane_length := (p1 - p0).norm
    let pn := (p1 - p0) / lane_length
    let p_l := coordinates - p0
    let p_l_projection := p_l.dot pn
    some (p_l - p_l_projection * pn).norm
  | _, _ => none

/-- `manager::is_within_lane` of utilities.cpp, over the reals; absent when an end
of the lane is not a waypoint of the graph. `binary64.manager.is_within_lane` is the
function in `double`. -/
noncomputable def is_within_lane (lane : agv.Lane) (graph : agv.Graph)
    (coordinates : Vector2d) : Option Bool :=
  match graph.get_waypoint lane.entry.waypoint_index,
      graph.get_waypoint lane.exit.waypoint_index with
  | some entry_wp, some exit_wp =>
    let p0 := entry_wp.get_location
    let p1 := exit_wp.get_location
    let lane_length := (p1 - p0).norm
    let pn := (p1 - p0) / lane_length
    let p_l := coordinates - p0
    let p_l_projection := p_l.dot pn
    if p_l_projection ≥ 0 ∧ p_l_projection ≤ lane_length then
      some true
    else
      some false
  | _, _ => none

/-- One iteration of the loop of `find_nearest_waypoint`: the pair
`(nearest_wp, nearest_dist)` after waypoint `i` has been looked at. -/
noncomputable def find_nearest_waypoint_step (graph : agv.Graph) (coordinates : Vector2d)
    (nearest : Option agv.Waypoint × WithTop ℝ) (i : Nat) :
    Option agv.Waypoint × WithTop ℝ :=
  match graph.get_waypoint i with
  | none => nearest
  | some wp =>
    let wp_p := wp.get_location
    let dist := (coordinates - wp_p).norm
    if (dist : WithTop ℝ) < nearest.2 then (some wp, (dist : WithTop ℝ)) else nearest

/-- `manager::find_nearest_waypoint` of utilities.cpp, over the reals: the loop runs
over the indices `0 .. num_waypoints - 1`, starting from a null pointer and an
infinite distance. `binary64.manager.find_nearest_waypoint` is the function in
`double`. -/
noncomputable def find_nearest_waypoint (graph : agv.Graph) (coordinates : Vector2d) :
    Option agv.Waypoint × WithTop ℝ :=
  (List.range graph.num_waypoints).foldl
    (find_nearest_waypoint_step graph coordinates) (none, ⊤)

end manager

namespace manager

/-- The graph of test_Manager.cpp: six waypoints on one level, and lanes in both
directions between waypoint 0 and each of the waypoints 1 to 4. -/
def test_graph : agv.Graph :=
  { waypoints :=
      [ ⟨"test_level", ⟨0, 0⟩⟩, ⟨"test_level", ⟨10, 0⟩⟩, ⟨"test_level", ⟨-10, 0⟩⟩,
        ⟨"test_level", ⟨0, 10⟩⟩, ⟨"test_level", ⟨0, -10⟩⟩, ⟨"test_level", ⟨100, 100⟩⟩ ]
    lanes :=
      [ ⟨⟨0⟩, ⟨1⟩⟩, ⟨⟨1⟩, ⟨0⟩⟩, ⟨⟨0⟩, ⟨2⟩⟩, ⟨⟨2⟩, ⟨0⟩⟩,
        ⟨⟨0⟩, ⟨3⟩⟩, ⟨⟨3⟩, ⟨0⟩⟩, ⟨⟨0⟩, ⟨4⟩⟩, ⟨⟨4⟩, ⟨0⟩⟩ ] }

end manager

/-- The 2D coordinate of a location, as a vector over the reals. -/
def messages.Location.coordinates (location : messages.Location) : Vector2d :=
  ⟨(location.x : ℝ), (location.y : ℝ)⟩

/-- A waypoint position of the manager's graph as the waypoint the utilities take. -/
def Manager.graph_waypoint (position : Rat × Rat) : agv.Waypoint :=
  { map_name := "", get_location := ⟨(position.1 : ℝ), (position.2 : ℝ)⟩ }

namespace Manager

/-- Modelled from the spec: `Manager::make` is defined in Manager.cpp, which is not
among the sources at hand. The spec's factory configuration is a non-empty fleet
name, a graph, a server middleware, a coordinate transformer, a clock function and
an update callback, and a missing or invalid field gives absent. The test
make_Manager.cpp ("All valid") makes a manager from a graph to which no waypoint was
added, so of the graph only its presence is required. The manager returned has an
empty registry, a counter at 0, the default relocalization threshold of 10 m, and is
not started. -/
def make (fleet_name : String) (graph : Option (List (Rat × Rat)))
    (middleware to_robot_transform time_now_fn robot_updated_callback_fn : Bool) :
    Option Implementation :=
  if fleet_name.isEmpty then none
  else
    match graph with
    | none => none
    | some waypoints =>
      if !middleware then none
      else if !to_robot_transform then none
      else if !time_now_fn then none
      else if !robot_updated_callback_fn then none
      else
        some {
          robots := []
          graph := waypoints
          relocalization_threshold := 10
          current_task_id := 0
          sent_requests := []
          fleet_name := fleet_name
          started := false }

end Manager

/-- The power of two `2 ^ k`, computed as a shift. -/
def pow2 (k : Nat) : Nat :=
  1 <<< k

/-- The loop of `bit_length`: one binary digit is dropped in each round. -/
def bit_length_loop : Nat → Nat → Nat
  | 0, _ => 0
  | fuel + 1, m => if m = 0 then 0 else bit_length_loop fuel (m / 2) + 1

/-- The number of binary digits of a natural number, 0 for 0. -/
def bit_length (m : Nat) : Nat :=
  bit_length_loop m m

/-- The loop of `normalize`: a trailing zero digit of the mantissa goes into the
exponent. -/
def normalize_loop : Nat → Nat → Int → Nat × Int
  | 0, m, e => (m, e)
  | fuel + 1, m, e =>
    if m % 2 = 0 then normalize_loop fuel (m / 2) (e + 1) else (m, e)

/-- The pair of an odd mantissa and an exponent with the value `m * 2^e`; `(0, 0)`
for the value 0. -/
def normalize (m : Nat) (e : Int) : Nat × Int :=
  if m = 0 then (0, 0) else normalize_loop m m e

/-- A value of the C++ type `double`, an IEEE 754 binary64 number: a finite value
`(-1)^negative * mantissa * 2^exponent`, an infinity, or a NaN. The operations below
round to nearest, ties to even, and so deliver only finite values that binary64
holds exactly, written with an odd mantissa, or as `0 * 2^0`; a zero has a sign. -/
inductive Double where
  | finite (negative : Bool) (mantissa : Nat) (exponent : Int)
  | infinity (negative : Bool)
  | nan
deriving DecidableEq

namespace Double

/-- Rounding to nearest, ties to even, of the exact value
`(-1)^negative * mantissa * 2^exponent`: to 53 significant binary digits, or to a
multiple of 2^-1074 where the value is subnormal; a result of magnitude 2^1024 or
more is the infinity of that sign. With `shift` digits to drop, `q` is what is kept
and `r` what is dropped. -/
def round (negative : Bool) (mantissa : Nat) (exponent : Int) : Double :=
  let e := max (exponent + bit_length mantissa - 53) (-1074)
  let shift := (e - exponent).toNat
  let q := mantissa / pow2 shift
  let r := mantissa % pow2 shift
  let half := pow2 (shift - 1)
  let up := decide (half < r) || (decide (r = half) && decide (q % 2 = 1))
  let rounded : Nat × Int :=
    if e ≤ exponent then (mantissa, exponent)
    else if up then (q + 1, e)
    else (q, e)
  if 1024 < (bit_length rounded.1 : Int) + rounded.2 then infinity negative
  else finite negative (normalize rounded.1 rounded.2).1 (normalize rounded.1 rounded.2).2

/-- The integer `(-1)^negative * magnitude`. -/
def signed (negative : Bool) (magnitude : Nat) : Int :=
  if negative then -(magnitude : Int) else (magnitude : Int)

/-- Unary minus. -/
def neg : Double → Double
  | finite negative mantissa exponent => finite (!negative) mantissa exponent
  | infinity negative => infinity (!negative)
  | nan => nan

/-- Addition: the exact sum, rounded. An exact sum of zero is +0 unless both terms
are negative. -/
def add : Double → Double → Double
  | nan, _ => nan
  | _, nan => nan
  | infinity s, infinity t => if s = t then infinity s else nan
  | infinity s, finite _ _ _ => infinity s
  | finite _ _ _, infinity t => infinity t
  | finite s m e, finite t n f =>
    let g := min e f
    let z := signed s (m * pow2 (e - g).toNat) + signed t (n * pow2 (f - g).toNat)
    if z = 0 then finite (s && t) 0 0
    else round (decide (z < 0)) z.natAbs g

/-- Subtraction, `a - b = a + (-b)`. -/
def sub (a b : Double) : Double :=
  add a (neg b)

/-- Multiplication: the exact product, rounded. -/
def mul : Double → Double → Double
  | nan, _ => nan
  | _, nan => nan
  | infinity s, infinity t => infinity (xor s t)
  | infinity s, finite t n _ => if n = 0 then nan else infinity (xor s t)
  | finite s m _, infinity t => if m = 0 then nan else infinity (xor s t)
  | finite s m e, finite t n f => round (xor s t) (m * n) (e + f)

/-- Division: the exact quotient, rounded. The quotient is developed to more than 64
binary digits, with one more digit that tells whether anything is left over, which
rounds as the exact quotient does. -/
def div : Double → Double → Double
  | nan, _ => nan
  | _, nan => nan
  | infinity _, infinity _ => nan
  | infinity s, finite t _ _ => infinity (xor s t)
  | finite s _ _, infinity t => finite (xor s t) 0 0
  | finite s m e, finite t n f =>
    if n = 0 then (if m = 0 then nan else infinity (xor s t))
    else
      let k := bit_length n + 64
      let q := m * pow2 k / n
      let r := m * pow2 k % n
      round (xor s t) (2 * q + (if r = 0 then 0 else 1)) (e - f - k - 1)

/-- The loop of `sqrt_floor`: the binary digits of the root, from the highest. -/
def sqrt_floor_loop (n : Nat) : Nat → Nat → Nat
  | 0, r => r
  | k + 1, r =>
    sqrt_floor_loop n k (if (r + pow2 k) * (r + pow2 k) ≤ n then r + pow2 k else r)

/-- The integer part of the square root of a natural number. -/
def sqrt_floor (n : Nat) : Nat :=
  sqrt_floor_loop n (bit_length n / 2 + 1) 0

/-- The square root, `std::sqrt`: the exact root, rounded. The root is developed to
at least 64 binary digits, with one more digit that tells whether it is inexact. -/
def sqrt : Double → Double
  | nan => nan
  | infinity negative => if negative then nan else infinity false
  | finite negative m e =>
    if m = 0 then finite negative m e
    else if negative then nan
    else
      let k : Nat := if (e - 128) % 2 = 0 then 128 else 129
      let r := sqrt_floor (m * pow2 k)
      round false (2 * r + (if r * r = m * pow2 k then 0 else 1)) ((e - k) / 2 - 1)

/-- The comparison `a < b`, false when an operand is a NaN. -/
def lt : Double → Double → Bool
  | nan, _ => false
  | _, nan => false
  | infinity s, infinity t => s && !t
  | infinity s, finite _ _ _ => s
  | finite _ _ _, infinity t => !t
  | finite s m e, finite t n f =>
    decide (signed s (m * pow2 (e - min e f).toNat) < signed t (n * pow2 (f - min e f).toNat))

/-- The comparison `a <= b`, false when an operand is a NaN. -/
def le : Double → Double → Bool
  | nan, _ => false
  | _, nan => false
  | infinity s, infinity t => s || !t
  | infinity s, finite _ _ _ => s
  | finite _ _ _, infinity t => !t
  | finite s m e, finite t n f =>
    decide (signed s (m * pow2 (e - min e f).toNat) ≤ signed t (n * pow2 (f - min e f).toNat))

/-- The conversion of an unsigned integer to `double`, and the value of a decimal
literal that denotes a natural number: the number, rounded. -/
def of_nat (n : Nat) : Double :=
  round false n 0

/-- The conversion of a `double` to a signed integer type, `static_cast<int64_t>`:
the fractional part is dropped. C++ leaves the conversion of a NaN, of an infinity
and of a value outside the range of the integer type undefined; here a NaN and an
infinity give 0 and a large value is not reduced. -/
def truncate : Double → Int
  | finite negative m e =>
    signed negative (if 0 ≤ e then m * pow2 e.toNat else m / pow2 (-e).toNat)
  | infinity _ => 0
  | nan => 0

instance (n : Nat) : OfNat Double n := ⟨of_nat n⟩

instance : Neg Double := ⟨neg⟩

instance : Add Double := ⟨add⟩

instance : Sub Double := ⟨sub⟩

instance : Mul Double := ⟨mul⟩

instance : Div Double := ⟨div⟩

instance : LT Double := ⟨fun a b => lt a b = true⟩

instance : LE Double := ⟨fun a b => le a b = true⟩

instance (a b : Double) : Decidable (a < b) :=
  inferInstanceAs (Decidable (lt a b = true))

instance (a b : Double) : Decidable (a ≤ b) :=
  inferInstanceAs (Decidable (le a b = true))

end Double

namespace rmf_traffic

/-- `rmf_traffic::Time`, a time point of `std::chrono::steady_clock`: a count of
nanoseconds. -/
abbrev Time := Int

/-- `rmf_traffic::Duration`, the duration of `std::chrono::steady_clock`: a count of
nanoseconds. -/
abbrev Duration := Int

/-- `rmf_traffic::time::from_seconds`, of the rmf_traffic library, which is outside
the sources at hand: the `std::chrono::duration_cast` of a
`std::chrono::duration<double>` in seconds to the duration of the clock, which
multiplies the seconds by 10^9 in `double` and converts the product to the integer
count of nanoseconds. -/
def time.from_seconds (delta_t : Double) : Duration :=
  (delta_t * 1000000000).truncate

end rmf_traffic

namespace binary64

/-- `Eigen::Vector2d` with its coordinates of type `double`: the utilities of
utilities.cpp in the arithmetic the program computes in. -/
structure Vector2d where
  x : Double
  y : Double
deriving DecidableEq

namespace Vector2d

/-- Coefficient-wise difference, `a - b`. -/
instance : Sub Vector2d := ⟨fun a b => ⟨a.x - b.x, a.y - b.y⟩⟩

/-- Quotient of a vector by a scalar, `a / s`. -/
instance : HDiv Vector2d Double Vector2d := ⟨fun a s => ⟨a.x / s, a.y / s⟩⟩

/-- `a.dot(b)`, the sum of the products of the coefficients. -/
def dot (a b : Vector2d) : Double :=
  a.x * b.x + a.y * b.y

/-- `a.norm()`, the square root of the sum of the squares of the coefficients. -/
def norm (a : Vector2d) : Double :=
  (a.x * a.x + a.y * a.y).sqrt

end Vector2d

namespace agv

/-- What the utilities read of a `rmf_traffic::agv::Graph::Waypoint`, its location
of type `double`. -/
structure Waypoint where
  map_name : String
  get_location : Vector2d
deriving DecidableEq

/-- What the utilities read of a `rmf_traffic::agv::Graph`, the locations of type
`double`. -/
structure Graph where
  waypoints : List Waypoint
  lanes : List free_fleet.agv.Lane

/-- `Graph::num_waypoints`. -/
def Graph.num_waypoints (graph : Graph) : Nat :=
  graph.waypoints.length

/-- `Graph::get_waypoint`; absent for an index outside the graph, where the library
throws. -/
def Graph.get_waypoint (graph : Graph) (index : Nat) : Option Waypoint :=
  graph.waypoints.get? index

end agv

namespace manager

/-- `manager::distance_to_waypoint` of utilities.cpp, in `double`. -/
def distance_to_waypoint (waypoint : agv.Waypoint) (coordinates : Vector2d) : Double :=
  let p := waypoint.get_location
  (p - coordinates).norm

/-- `manager::is_within_lane` of utilities.cpp, in `double`; absent when an end of
the lane is not a waypoint of the graph. -/
def is_within_lane (lane : free_fleet.agv.Lane) (graph : agv.Graph)
    (coordinates : Vector2d) : Option Bool :=
  match graph.get_waypoint lane.entry.waypoint_index,
      graph.get_waypoint lane.exit.waypoint_index with
  | some entry_wp, some exit_wp =>
    let p0 := entry_wp.get_location
    let p1 := exit_wp.get_location
    let lane_length := (p1 - p0).norm
    let pn := (p1 - p0) / lane_length
    let p_l := coordinates - p0
    let p_l_projection := p_l.dot pn
    if p_l_projection ≥ 0 ∧ p_l_projection ≤ lane_length then
      some true
    else
      some false
  | _, _ => none

/-- One iteration of the loop of `find_nearest_waypoint`, in `double`: the pair
`(nearest_wp, nearest_dist)` after waypoint `i` has been looked at. -/
def find_nearest_waypoint_step (graph : agv.Graph) (coordinates : Vector2d)
    (nearest : Option agv.Waypoint × Double) (i : Nat) : Option agv.Waypoint × Double :=
  match graph.get_waypoint i with
  | none => nearest
  | some wp =>
    let wp_p := wp.get_location
    let dist := (coordinates - wp_p).norm
    if dist < nearest.2 then (some wp, dist) else nearest

/-- `manager::find_nearest_waypoint` of utilities.cpp, in `double`: the loop runs
over the indices `0 .. num_waypoints - 1`, starting from a null pointer and
`std::numeric_limits<double>::infinity()`. -/
def find_nearest_waypoint (graph : agv.Graph) (coordinates : Vector2d) :
    Option agv.Waypoint × Double :=
  (List.range graph.num_waypoints).foldl
    (find_nearest_waypoint_step graph coordinates) (none, Double.infinity false)

end manager

end binary64

namespace Client

/-- The callbacks a `MockClientMiddleware` (mock_ClientMiddleware.hpp) holds, one per
request variant; an empty `std::function` is absent. A callback bound to `this`
takes the client state of the moment it is invoked. -/
structure MockClientMiddleware where
  dock_request_callback :
    Option (Implementation → messages.DockRequest → Implementation × List CommandCall)
  pause_request_callback :
    Option (Implementation → messages.PauseRequest → Implementation × List CommandCall)
  resume_request_callback :
    Option (Implementation → messages.ResumeRequest → Implementation × List CommandCall)
  navigation_request_callback :
    Option (Implementation → messages.NavigationRequest → Implementation × List CommandCall)
  relocalization_request_callback :
    Option (Implementation → messages.RelocalizationRequest →
      Implementation × List CommandCall)

namespace MockClientMiddleware

/-- `MockClientMiddleware::set_dock_request_callback`. -/
def set_dock_request_callback (self : MockClientMiddleware)
    (callback : Implementation → messages.DockRequest → Implementation × List CommandCall) :
    MockClientMiddleware :=
  { self with dock_request_callback := some callback }

/-- `MockClientMiddleware::set_pause_request_callback`. -/
def set_pause_request_callback (self : MockClientMiddleware)
    (callback : Implementation → messages.PauseRequest → Implementation × List CommandCall) :
    MockClientMiddleware :=
  { self with pause_request_callback := some callback }

/-- `MockClientMiddleware::set_resume_request_callback`. -/
def set_resume_request_callback (self : MockClientMiddleware)
    (callback : Implementation → messages.ResumeRequest → Implementation × List CommandCall) :
    MockClientMiddleware :=
  { self with resume_request_callback := some callback }

/-- `MockClientMiddleware::set_navigation_request_callback`. -/
def set_navigation_request_callback (self : MockClientMiddleware)
    (callback :
      Implementation → messages.NavigationRequest → Implementation × List CommandCall) :
    MockClientMiddleware :=
  { self with navigation_request_callback := some callback }

/-- `MockClientMiddleware::set_relocalization_request_callback`. -/
def set_relocalization_request_callback (self : MockClientMiddleware)
    (callback :
      Implementation → messages.RelocalizationRequest → Implementation × List CommandCall) :
    MockClientMiddleware :=
  { self with relocalization_request_callback := some callback }

/-- A request arrives at the middleware, as in the `received_*_request` methods of
`MockClientMiddlewareWithServer` (test_Client.cpp): the callback held for the
variant is invoked with the request, and nothing happens when none is held. -/
def received_request (self : MockClientMiddleware) (client : Implementation) :
    messages.Request → Implementation × List CommandCall
  | messages.Request.pause request =>
    match self.pause_request_callback with
    | some callback => callback client request
    | none => (client, [])
  | messages.Request.resume request =>
    match self.resume_request_callback with
    | some callback => callback client request
    | none => (client, [])
  | messages.Request.dock request =>
    match self.dock_request_callback with
    | some callback => callback client request
    | none => (client, [])
  | messages.Request.navigation request =>
    match self.navigation_request_callback with
    | some callback => callback client request
    | none => (client, [])
  | messages.Request.relocalization request =>
    match self.relocalization_request_callback with
    | some callback => callback client request
    | none => (client, [])

end MockClientMiddleware

/-- `Client::Implementation::set_callbacks`: each setter of the middleware is given
the handler of its variant bound to `this`, in the order pause, resume, dock,
navigation, relocalization. -/
def Implementation.set_callbacks (middleware : MockClientMiddleware) : MockClientMiddleware :=
  let m1 := middleware.set_pause_request_callback Implementation.handle_pause_request
  let m2 := m1.set_resume_request_callback Implementation.handle_resume_request
  let m3 := m2.set_dock_request_callback Implementation.handle_dock_request
  let m4 := m3.set_navigation_request_callback Implementation.handle_navigation_request
  m4.set_relocalization_request_callback Implementation.handle_relocalization_request

/-- A middleware on which no callback has been set. -/
def MockClientMiddleware.empty : MockClientMiddleware :=
  { dock_request_callback := none
    pause_request_callback := none
    resume_request_callback := none
    navigation_request_callback := none
    relocalization_request_callback := none }

/-- An instant of the clock, `rmf_traffic::Time`, in nanoseconds. -/
abbrev Time := rmf_traffic.Time

/-- The local `duration_per_iteration` of `Client::Implementation::run`:
`1.0 / frequency`, a division in `double`, converted by
`rmf_traffic::time::from_seconds`. -/
def duration_per_iteration (frequency : Nat) : rmf_traffic.Duration :=
  let seconds_per_iteration : Double := 1 / Double.of_nat frequency
  rmf_traffic.time.from_seconds seconds_per_iteration

/-- What `Client::Implementation::run` does, in order: the registration of the
callbacks, then the calls of `run_once`, each with the clock value the iteration
compared with `t_prev` and the clock value it then stored in `t_prev`. -/
inductive LoopAction where
  | set_callbacks
  | run_once (read : Time) (t_prev : Time)
deriving DecidableEq

/-- The clock values of a call of `run_once`, if the action is one. -/
def LoopAction.tick? : LoopAction → Option (Time × Time)
  | LoopAction.set_callbacks => none
  | LoopAction.run_once read t_prev => some (read, t_prev)

/-- The body of the `while` loop of `Client::Implementation::run`, on the values the
successive calls of `steady_clock::now()` return. An iteration reads the clock; if
less than `duration_per_iteration` has passed since `t_prev` it goes on to the next
iteration, otherwise it reads the clock again into `t_prev` and calls `run_once`.
The loop itself does not end; the list of clock values is the part of the run that
is looked at. -/
def Implementation.run_loop (duration_per_iteration : rmf_traffic.Duration) :
    Time → List Time → List LoopAction
  | _, [] => []
  | _, [_] => []
  | t_prev, now :: now2 :: rest =>
    if now - t_prev < duration_per_iteration then
      Implementation.run_loop duration_per_iteration t_prev (now2 :: rest)
    else
      LoopAction.run_once now now2 :: Implementation.run_loop duration_per_iteration now2 rest

/-- `Client::Implementation::run`: `set_callbacks()`, the duration of one iteration
from `1.0 / frequency`, the first clock value into `t_prev`, then the loop while the
client is connected; no field that `connected()` reads is assigned in the loop. -/
def Implementation.run (self : Implementation) (frequency : Nat) (clock : List Time) :
    List LoopAction :=
  LoopAction.set_callbacks ::
    match clock with
    | [] => []
    | t_prev :: readings =>
      if self.connected then
        Implementation.run_loop (duration_per_iteration frequency) t_prev readings
      else []

/-- The exceptions `Client::run` and `Client::start_async` throw. -/
inductive StartError where
  | range_error
  | runtime_error
deriving DecidableEq

/-- `Client::run`: throws on a zero frequency and on a client already started,
otherwise sets `started` and enters `Implementation::run` in the caller's thread.
The result is the client afterwards and either the exception or what the loop
does. -/
def run (self : Implementation) (frequency : Nat) (clock : List Time) :
    Implementation × Except StartError (List LoopAction) :=
  if frequency = 0 then (self, Except.error StartError.range_error)
  else if self.started then (self, Except.error StartError.runtime_error)
  else
    let self1 := { self with started := true }
    (self1, Except.ok (self1.run frequency clock))

/-- `Client::start_async`: throws on a zero frequency and on a client already
started, otherwise calls `Implementation::start_async`, which spawns a thread that
runs `Implementation::run`. No field of the client other than the thread is
assigned. The result is the client afterwards and either the exception or what the
loop of the spawned thread does. -/
def start_async (self : Implementation) (frequency : Nat) (clock : List Time) :
    Implementation × Except StartError (List LoopAction) :=
  if frequency = 0 then (self, Except.error StartError.range_error)
  else if self.started then (self, Except.error StartError.runtime_error)
  else (self, Except.ok (self.run frequency clock))

/-- `Client::started`. -/
def started (self : Implementation) : Bool :=
  self.started

end Client

namespace Client

/-- Clock values for the examples, after a loop entered at instant 0: 1/4, 1/2,
3/4, 1, 3/2 and 2 seconds, in nanoseconds. -/
def test_clock : List Time :=
  [250000000, 500000000, 750000000, 1000000000, 1500000000, 2000000000]

end Client

open Client messages

/-! ## Request handlers -/

theorem handle_request_rejected (impl : Implementation) (r : Request)
    (h : impl.is_valid_request r.robot_name r.task_id = false) :
    impl.handle_request r = (impl, []) := by
  cases r <;>
    simp_all [Implementation.handle_request, Implementation.handle_pause_request,
      Implementation.handle_resume_request, Implementation.handle_dock_request,
      Implementation.handle_navigation_request, Implementation.handle_relocalization_request,
      Request.robot_name, Request.task_id]

theorem handle_request_accepted (impl : Implementation) (r : Request)
    (h : impl.is_valid_request r.robot_name r.task_id = true) :
    (impl.handle_request r).1 =
      { impl with task_ids := insert r.task_id impl.task_ids, task_id := some r.task_id } ∧
    (impl.handle_request r).2.length = 1 ∧
    ∀ call ∈ (impl.handle_request r).2, ∀ callback, call.callback? = some callback →
      ∀ s : Implementation, callback s = { s with task_id := some 0 } := by
  cases r <;> simp only [Request.robot_name, Request.task_id] at h <;>
    simp [Implementation.handle_request, Implementation.handle_pause_request,
      Implementation.handle_resume_request, Implementation.handle_dock_request,
      Implementation.handle_navigation_request, Implementation.handle_relocalization_request,
      Request.task_id, h, CommandCall.callback?]

theorem is_valid_request_iff (impl : Implementation) (name : String) (id : TaskId) :
    impl.is_valid_request name id = true ↔
      name = impl.robot_name ∧ id ∉ impl.task_ids ∧ id ≠ 0 := by
  simp [Implementation.is_valid_request, and_assoc]

theorem task_ids_subset_handle_request (impl : Implementation) (r : Request) :
    impl.task_ids ⊆ (impl.handle_request r).1.task_ids := by
  cases hv : impl.is_valid_request r.robot_name r.task_id
  · rw [handle_request_rejected impl r hv]
  · rw [(handle_request_accepted impl r hv).1]
    exact Finset.subset_insert _ _

/-! ## The client in its environment -/

theorem callback_for_mem (w : World) (id : TaskId) (callback : RequestCompleted)
    (h : w.callback_for id = some callback) :
    ∃ call ∈ w.command_calls, call.1 = id ∧ call.2.callback? = some callback := by
  obtain ⟨call, hmem, hcall⟩ := List.exists_of_findSome?_eq_some h
  refine ⟨call, hmem, ?_⟩
  by_cases hid : call.1 = id
  · simpa [hid] using hcall
  · simp [hid] at hcall

theorem callbacks_clear_fresh (impl : Implementation) :
    (World.fresh impl).CallbacksClear := by
  intro call hcall
  simp [World.fresh] at hcall

theorem callbacks_clear_step (w : World) (e : Event) (h : w.CallbacksClear) :
    (w.step e).CallbacksClear := by
  cases e with
  | request r =>
    cases hv : w.impl.is_valid_request r.robot_name r.task_id
    · have hrej := handle_request_rejected w.impl r hv
      simpa only [World.step, hrej, List.map_nil, List.append_nil] using h
    · obtain ⟨_, _, hcb⟩ := handle_request_accepted w.impl r hv
      intro call hcall
      simp only [World.step, List.mem_append, List.mem_map] at hcall
      rcases hcall with hold | ⟨c, hc, rfl⟩
      · exact h call hold
      · exact hcb c hc
  | completion id =>
    cases hcb : w.callback_for id with
    | none => simpa only [World.step, hcb] using h
    | some callback => simpa only [World.step, hcb] using h
  | run_once status => simpa only [World.step] using h

theorem callbacks_clear_run (events : List Event) (w : World) (h : w.CallbacksClear) :
    (w.run events).CallbacksClear := by
  induction events generalizing w with
  | nil => exact h
  | cons e rest ih => exact ih (w.step e) (callbacks_clear_step w e h)

theorem step_completion (w : World) (id : TaskId) (h : w.CallbacksClear) :
    w.step (Event.completion id) = w ∨
    (id ∈ w.command_calls.map Prod.fst ∧
      w.step (Event.completion id) =
        { w with impl := { w.impl with task_id := some 0 }, completed := id :: w.completed }) := by
  cases hcb : w.callback_for id with
  | none => exact Or.inl (by simp only [World.step, hcb])
  | some callback =>
    obtain ⟨call, hmem, hid, hcall⟩ := callback_for_mem w id callback hcb
    refine Or.inr ⟨List.mem_map.2 ⟨call, hmem, hid⟩, ?_⟩
    simp only [World.step, hcb, h call hmem callback hcall]

theorem task_ids_subset_step (w : World) (e : Event) (h : w.CallbacksClear) :
    w.impl.task_ids ⊆ (w.step e).impl.task_ids := by
  cases e with
  | request r => exact task_ids_subset_handle_request w.impl r
  | completion id =>
    rcases step_completion w id h with heq | ⟨_, heq⟩ <;> rw [heq]
  | run_once status => simp [World.step, Implementation.run_once]

theorem task_ids_subset_run (events : List Event) (w : World) (h : w.CallbacksClear) :
    w.impl.task_ids ⊆ (w.run events).impl.task_ids := by
  induction events generalizing w with
  | nil => exact Finset.Subset.refl _
  | cons e rest ih =>
    exact Finset.Subset.trans (task_ids_subset_step w e h)
      (ih (w.step e) (callbacks_clear_step w e h))

theorem consistent_fresh (impl : Implementation) (h : impl.task_id = none) :
    (World.fresh impl).Consistent := by
  refine ⟨?_, ?_, ?_⟩
  · intro call hcall
    simp [World.fresh] at hcall
  · intro id hid
    simp [World.fresh] at hid
  · intro id hid
    simp [World.fresh, h] at hid

theorem consistent_step (w : World) (e : Event) (hclear : w.CallbacksClear)
    (h : w.Consistent) : (w.step e).Consistent := by
  obtain ⟨hcalls, hdone, hcur⟩ := h
  cases e with
  | request r =>
    cases hv : w.impl.is_valid_request r.robot_name r.task_id
    · have hrej := handle_request_rejected w.impl r hv
      simp only [World.step, hrej, List.map_nil, List.append_nil]
      exact ⟨hcalls, hdone, hcur⟩
    · obtain ⟨hst, _, _⟩ := handle_request_accepted w.impl r hv
      have hnew : r.task_id ∉ w.impl.task_ids :=
        ((is_valid_request_iff w.impl _ _).1 hv).2.1
      refine ⟨?_, ?_, ?_⟩
      · intro call hcall
        simp only [World.step, List.mem_append, List.mem_map] at hcall
        simp only [World.step, hst]
        rcases hcall with hold | ⟨c, _, rfl⟩
        · exact Finset.mem_insert_of_mem (hcalls call hold)
        · exact Finset.mem_insert_self _ _
      · intro id hid
        simp only [World.step, hst]
        exact Finset.mem_insert_of_mem (hdone id hid)
      · intro id hid
        simp only [World.step, hst, Option.some.injEq] at hid
        subst hid
        refine Or.inr ⟨?_, ?_⟩
        · simp only [World.step, hst]
          exact Finset.mem_insert_self _ _
        · intro hmem
          exact hnew (hdone _ hmem)
  | completion id =>
    rcases step_completion w id hclear with heq | ⟨hlogged, heq⟩
    · rw [heq]
      exact ⟨hcalls, hdone, hcur⟩
    · rw [heq]
      obtain ⟨call, hmem, hid⟩ := List.mem_map.1 hlogged
      refine ⟨hcalls, ?_, ?_⟩
      · intro j hj
        rcases List.mem_cons.1 hj with rfl | hj
        · exact hid ▸ hcalls call hmem
        · exact hdone j hj
      · intro j hj
        simp only [Option.some.injEq] at hj
        exact Or.inl hj.symm
  | run_once status =>
    simp only [World.step, Implementation.run_once]
    exact ⟨hcalls, hdone, hcur⟩

theorem consistent_run (events : List Event) (w : World) (hclear : w.CallbacksClear)
    (h : w.Consistent) : (w.run events).Consistent := by
  induction events generalizing w with
  | nil => exact h
  | cons e rest ih =>
    exact ih (w.step e) (callbacks_clear_step w e hclear) (consistent_step w e hclear h)

theorem accepted_iff (impl : Implementation) (r : Request) :
    (impl.handle_request r).2 ≠ [] ↔ impl.is_valid_request r.robot_name r.task_id = true := by
  cases hv : impl.is_valid_request r.robot_name r.task_id
  · simp [handle_request_rejected impl r hv]
  · have hlen := (handle_request_accepted impl r hv).2.1
    constructor
    · intro _
      rfl
    · intro _ hnil
      rw [hnil] at hlen
      simp at hlen

theorem make_eq_some (name model : String) (ch sh mw : Bool) (impl : Implementation)
    (h : make name model ch sh mw = some impl) :
    impl.robot_name = name ∧ impl.robot_model = model ∧ impl.task_id = none ∧
      impl.task_ids = ∅ ∧ impl.started = false := by
  unfold make at h
  split_ifs at h
  simp only [Option.some.injEq] at h
  subst h
  exact ⟨rfl, rfl, rfl, rfl, rfl⟩

theorem handle_requests_append (s : Implementation) (pre : List Request) (r : Request) :
    s.handle_requests (pre ++ [r]) = ((s.handle_requests pre).handle_request r).1 := by
  simp [Implementation.handle_requests, List.foldl_append]

theorem handle_requests_task_ids (rs : List Request) (s : Implementation)
    (haddr : ∀ r ∈ rs, r.robot_name = s.robot_name ∧ r.task_id ≠ 0)
    (hdistinct : (rs.map Request.task_id).Nodup)
    (hnew : ∀ r ∈ rs, r.task_id ∉ s.task_ids) :
    (s.handle_requests rs).task_ids = s.task_ids ∪ (rs.map Request.task_id).toFinset ∧
      (s.handle_requests rs).robot_name = s.robot_name := by
  induction rs generalizing s with
  | nil => simp [Implementation.handle_requests]
  | cons r rest ih =>
    have hv : s.is_valid_request r.robot_name r.task_id = true :=
      (is_valid_request_iff s _ _).2
        ⟨(haddr r (List.mem_cons_self _ _)).1, hnew r (List.mem_cons_self _ _),
          (haddr r (List.mem_cons_self _ _)).2⟩
    have hst := (handle_request_accepted s r hv).1
    rw [List.map_cons, List.nodup_cons] at hdistinct
    have hstep : s.handle_requests (r :: rest) =
        ((s.handle_request r).1).handle_requests rest := rfl
    have hrec := ih (s.handle_request r).1
      (by
        intro q hq
        rw [hst]
        exact haddr q (List.mem_cons_of_mem _ hq))
      hdistinct.2
      (by
        intro q hq
        rw [hst]
        simp only [Finset.mem_insert, not_or]
        refine ⟨?_, hnew q (List.mem_cons_of_mem _ hq)⟩
        intro heq
        exact hdistinct.1 (heq ▸ List.mem_map_of_mem Request.task_id hq))
    rw [hstep, hrec.1, hrec.2, hst]
    refine ⟨?_, rfl⟩
    ext id
    simp only [Finset.mem_union, Finset.mem_insert, List.mem_toFinset, List.map_cons,
      List.mem_cons]
    tauto

/-! ## Claims on the client -/

/-- C1 (cross-robot isolation): whatever the client state, a request of any of the
five variants whose robot name is not the client's leaves the current task id and
the seen-id set as they were and makes no call on the command handle. -/
theorem cross_robot_isolation (impl : Implementation) (r : Request)
    (h : r.robot_name ≠ impl.robot_name) :
    (impl.handle_request r).1.task_id = impl.task_id ∧
    (impl.handle_request r).1.task_ids = impl.task_ids ∧
    (impl.handle_request r).2 = [] := by
  have hr : impl.is_valid_request r.robot_name r.task_id = false := by
    simp [Implementation.is_valid_request, h]
  simp [handle_request_rejected impl r hr]

/-- C1, witness: the dock request of the tests that is addressed to another robot. -/
theorem cross_robot_isolation_witness :
    "wrong_robot" ≠ "mock_robot" ∧
    (mock_client.handle_request (Request.dock ⟨"wrong_robot", 1, "mock_dock"⟩)).1.task_id
      = none ∧
    (mock_client.handle_request (Request.dock ⟨"wrong_robot", 1, "mock_dock"⟩)).1.task_ids
      = ∅ ∧
    (mock_client.handle_request (Request.dock ⟨"wrong_robot", 1, "mock_dock"⟩)).2 = [] :=
  ⟨by decide,
    cross_robot_isolation mock_client (Request.dock ⟨"wrong_robot", 1, "mock_dock"⟩)
      (by decide)⟩

/-- C2 (duplicate suppression): in any client state a request of any variant whose
task id is already in the seen-id set is rejected, with no change of the current
task id or the seen-id set and no call on the command handle. Hence, after any
history, a request the client accepts makes exactly one call on the command handle,
and delivering it again after any further requests, completions and ticks is
rejected and makes none. -/
theorem duplicate_suppression (impl : Implementation) (before between : List Event)
    (r : Request)
    (hacc : (((World.fresh impl).run before).impl.handle_request r).2 ≠ []) :
    (∀ (s : Implementation) (q : Request), q.task_id ∈ s.task_ids →
      (s.handle_request q).1.task_id = s.task_id ∧
      (s.handle_request q).1.task_ids = s.task_ids ∧
      (s.handle_request q).2 = []) ∧
    (((World.fresh impl).run before).impl.handle_request r).2.length = 1 ∧
    ((((World.fresh impl).run before).step (Event.request r)).run between).impl.handle_request r
      = (((((World.fresh impl).run before).step (Event.request r)).run between).impl, []) := by
  have hseen : ∀ (s : Implementation) (q : Request), q.task_id ∈ s.task_ids →
      s.handle_request q = (s, []) := by
    intro s q hq
    apply handle_request_rejected
    simp [Implementation.is_valid_request, hq]
  have hv := (accepted_iff _ r).1 hacc
  have hclear := callbacks_clear_run before _ (callbacks_clear_fresh impl)
  refine ⟨?_, (handle_request_accepted _ r hv).2.1, ?_⟩
  · intro s q hq
    simp [hseen s q hq]
  · apply hseen
    apply task_ids_subset_run between _ (callbacks_clear_step _ _ hclear)
    simp only [World.step, (handle_request_accepted _ r hv).1]
    exact Finset.mem_insert_self _ _

/-- C3 (effect of acceptance): a request addressed to this robot with a non-zero
task id that is not in the seen-id set adds its id to the seen-id set, makes it the
current task id, and makes exactly one call on the command handle: `stop()` for
pause, `resume()` for resume, `dock(dock_name, cb)` for dock,
`follow_new_path(path, cb)` for navigation, `relocalize(location, cb)` for
relocalization. -/
theorem effect_of_acceptance (impl : Implementation) (r : Request)
    (haddr : r.robot_name = impl.robot_name) (hzero : r.task_id ≠ 0)
    (hnew : r.task_id ∉ impl.task_ids) :
    (impl.handle_request r).1.task_ids = insert r.task_id impl.task_ids ∧
    (impl.handle_request r).1.task_id = some r.task_id ∧
    match r with
    | Request.pause _ => (impl.handle_request r).2 = [CommandCall.stop]
    | Request.resume _ => (impl.handle_request r).2 = [CommandCall.resume]
    | Request.dock request =>
      ∃ cb, (impl.handle_request r).2 = [CommandCall.dock request.dock_name cb]
    | Request.navigation request =>
      ∃ cb, (impl.handle_request r).2 = [CommandCall.follow_new_path request.path cb]
    | Request.relocalization request =>
      ∃ cb, (impl.handle_request r).2 = [CommandCall.relocalize request.location cb] := by
  cases r <;> simp only [Request.robot_name, Request.task_id] at haddr hzero hnew <;>
    simp [Implementation.handle_request, Implementation.handle_pause_request,
      Implementation.handle_resume_request, Implementation.handle_dock_request,
      Implementation.handle_navigation_request, Implementation.handle_relocalization_request,
      Implementation.is_valid_request, Request.task_id, haddr, hzero, hnew]

/-- C3, witness: the dock request with id 1 of the tests on the fresh client. -/
theorem effect_of_acceptance_witness :
    "mock_robot" = mock_client.robot_name ∧ (1 : TaskId) ≠ 0 ∧
    (1 : TaskId) ∉ mock_client.task_ids ∧
    (mock_client.handle_request (Request.dock ⟨"mock_robot", 1, "mock_dock"⟩)).1.task_ids
      = insert 1 mock_client.task_ids ∧
    (mock_client.handle_request (Request.dock ⟨"mock_robot", 1, "mock_dock"⟩)).1.task_id
      = some 1 ∧
    ∃ cb, (mock_client.handle_request (Request.dock ⟨"mock_robot", 1, "mock_dock"⟩)).2
      = [CommandCall.dock "mock_dock" cb] :=
  ⟨by decide, by decide, by decide,
    effect_of_acceptance mock_client (Request.dock ⟨"mock_robot", 1, "mock_dock"⟩)
      (by decide) (by decide) (by decide)⟩

/-- C5 (zero task id): a request of any of the five variants whose task id is 0, in
particular one addressed to this robot, is not accepted: the current task id and the
seen-id set stay as they were and no call is made on the command handle. -/
theorem zero_task_id_rejected (impl : Implementation) (r : Request)
    (h : r.task_id = 0) :
    (impl.handle_request r).1.task_id = impl.task_id ∧
    (impl.handle_request r).1.task_ids = impl.task_ids ∧
    (impl.handle_request r).2 = [] := by
  have hr : impl.is_valid_request r.robot_name r.task_id = false := by
    simp [Implementation.is_valid_request, h]
  simp [handle_request_rejected impl r hr]

/-- C5, witness: a pause request with id 0 addressed to the client of the tests. -/
theorem zero_task_id_rejected_witness :
    (Request.pause ⟨"mock_robot", 0⟩).robot_name = mock_client.robot_name ∧
    (Request.pause ⟨"mock_robot", 0⟩).task_id = 0 ∧
    (mock_client.handle_request (Request.pause ⟨"mock_robot", 0⟩)).1.task_id = none ∧
    (mock_client.handle_request (Request.pause ⟨"mock_robot", 0⟩)).1.task_ids = ∅ ∧
    (mock_client.handle_request (Request.pause ⟨"mock_robot", 0⟩)).2 = [] :=
  ⟨by decide, by decide,
    zero_task_id_rejected mock_client (Request.pause ⟨"mock_robot", 0⟩) (by decide)⟩

/-- C2, witness: the client of the tests accepts the dock request with id 1; after
the completion of task 1, a tick and a pause request with id 2, the same dock
request is delivered again and makes no call on the command handle. -/
theorem duplicate_suppression_witness :
    (((World.fresh mock_client).run []).impl.handle_request
      (Request.dock ⟨"mock_robot", 1, "mock_dock"⟩)).2 ≠ [] ∧
    (((World.fresh mock_client).run []).impl.handle_request
      (Request.dock ⟨"mock_robot", 1, "mock_dock"⟩)).2.length = 1 ∧
    (((((World.fresh mock_client).run []).step
      (Event.request (Request.dock ⟨"mock_robot", 1, "mock_dock"⟩))).run
        test_events).impl.handle_request (Request.dock ⟨"mock_robot", 1, "mock_dock"⟩)).2
      = [] :=
  have hacc : (((World.fresh mock_client).run []).impl.handle_request
      (Request.dock ⟨"mock_robot", 1, "mock_dock"⟩)).2 ≠ [] :=
    (accepted_iff _ _).2 (by decide)
  ⟨hacc,
    (duplicate_suppression mock_client [] test_events
      (Request.dock ⟨"mock_robot", 1, "mock_dock"⟩) hacc).2.1,
    by rw [(duplicate_suppression mock_client [] test_events
      (Request.dock ⟨"mock_robot", 1, "mock_dock"⟩) hacc).2.2]⟩

/-- C6 (sequence of accepted requests): starting from a client as `make` returns it,
for requests all addressed to this robot with pairwise distinct non-zero task ids,
delivered in order with no completion in between, the current task id after each
delivery is the id just delivered, and the seen-id set at the end is exactly the set
of the delivered ids. -/
theorem sequence_of_accepted_requests (name model : String) (ch sh mw : Bool)
    (impl : Implementation) (hmake : make name model ch sh mw = some impl)
    (rs : List Request)
    (haddr : ∀ r ∈ rs, r.robot_name = impl.robot_name ∧ r.task_id ≠ 0)
    (hdistinct : (rs.map Request.task_id).Nodup) :
    (∀ pre r post, rs = pre ++ r :: post →
      (impl.handle_requests (pre ++ [r])).task_id = some r.task_id) ∧
    (impl.handle_requests rs).task_ids = (rs.map Request.task_id).toFinset := by
  have hempty : impl.task_ids = ∅ := (make_eq_some _ _ _ _ _ _ hmake).2.2.2.1
  have hnew : ∀ l : List Request, ∀ r ∈ l, r.task_id ∉ impl.task_ids := by
    intro l r _
    simp [hempty]
  refine ⟨?_, ?_⟩
  · intro pre r post hrs
    subst hrs
    have hpre := handle_requests_task_ids pre impl
      (fun q hq => haddr q (List.mem_append_left _ hq))
      (by
        rw [List.map_append] at hdistinct
        exact (List.nodup_append.1 hdistinct).1)
      (hnew pre)
    have hr := haddr r (List.mem_append_right _ (List.mem_cons_self _ _))
    have hv : (impl.handle_requests pre).is_valid_request r.robot_name r.task_id = true := by
      refine (is_valid_request_iff _ _ _).2 ⟨hr.1.trans hpre.2.symm, ?_, hr.2⟩
      rw [hpre.1, hempty]
      simp only [Finset.empty_union, List.mem_toFinset]
      intro hmem
      rw [List.map_append, List.map_cons] at hdistinct
      exact (List.nodup_append.1 hdistinct).2.2 hmem (List.mem_cons_self _ _)
    rw [handle_requests_append, (handle_request_accepted _ r hv).1]
  · have hall := handle_requests_task_ids rs impl haddr hdistinct (hnew rs)
    rw [hall.1, hempty, Finset.empty_union]

/-- C6, witness: the five requests of the test, with ids 1 to 5, leave the current
task id 5 and the seen-id set {1, 2, 3, 4, 5}. -/
theorem sequence_of_accepted_requests_witness :
    make "mock_robot" "mock_robot_model" true true true = some mock_client ∧
    (∀ r ∈ test_requests, r.robot_name = mock_client.robot_name ∧ r.task_id ≠ 0) ∧
    (test_requests.map Request.task_id).Nodup ∧
    (mock_client.handle_requests test_requests).task_id = some 5 ∧
    (mock_client.handle_requests test_requests).task_ids = {1, 2, 3, 4, 5} :=
  have haddr : ∀ r ∈ test_requests, r.robot_name = mock_client.robot_name ∧ r.task_id ≠ 0 := by
    decide
  have hdistinct : (test_requests.map Request.task_id).Nodup := by decide
  ⟨by decide, haddr, hdistinct,
    (sequence_of_accepted_requests "mock_robot" "mock_robot_model" true true true
      mock_client (by decide) test_requests haddr hdistinct).1
      (test_requests.take 4) (Request.relocalization ⟨"mock_robot", 5, test_location, 0⟩) []
      (by decide),
    (sequence_of_accepted_requests "mock_robot" "mock_robot_model" true true true
      mock_client (by decide) test_requests haddr hdistinct).2.trans (by decide)⟩

theorem callbacks_of_accepted (impl : Implementation) (r : Request)
    (hkind : r.reports_completion = true) (hacc : (impl.handle_request r).2 ≠ []) :
    (impl.handle_request r).2.filterMap CommandCall.callback? =
      [fun this => { this with task_id := some 0 }] := by
  have hv := (accepted_iff impl r).1 hacc
  cases r <;> simp only [Request.robot_name, Request.task_id] at hv <;>
    simp [Request.reports_completion] at hkind <;>
    simp [Implementation.handle_request, Implementation.handle_dock_request,
      Implementation.handle_navigation_request, Implementation.handle_relocalization_request,
      hv, CommandCall.callback?]

/-- C7, counterexample: the client of the tests accepts the dock request with id 1,
then the pause request with id 2; when the callback handed to `dock` for task 1 is
then invoked, the current task id is not 2 any more. -/
theorem stale_completion_counterexample :
    (mock_client.handle_request (Request.dock ⟨"mock_robot", 1, "mock_dock"⟩)).1.task_id
      = some 1 ∧
    ((mock_client.handle_request (Request.dock ⟨"mock_robot", 1, "mock_dock"⟩)).1.handle_request
      (Request.pause ⟨"mock_robot", 2⟩)).1.task_id = some 2 ∧
    ¬ ∀ callback ∈
        (mock_client.handle_request (Request.dock ⟨"mock_robot", 1, "mock_dock"⟩)).2.filterMap
          CommandCall.callback?,
      (callback
        ((mock_client.handle_request (Request.dock ⟨"mock_robot", 1, "mock_dock"⟩)).1.handle_request
          (Request.pause ⟨"mock_robot", 2⟩)).1).task_id = some 2 := by
  refine ⟨by decide, by decide, ?_⟩
  rw [callbacks_of_accepted mock_client (Request.dock ⟨"mock_robot", 1, "mock_dock"⟩) rfl
    ((accepted_iff _ _).2 (by decide))]
  intro h
  have h2 := h _ (List.mem_singleton_self _)
  simp at h2

/-- C7, amended (a stale completion erases the newer task): when a dock, navigation
or relocalization request is accepted, then another request is accepted, and then
the completion callback handed to the driver for the first one is invoked, the
current task id is 0 afterwards, which is not the id of the second request; the
seen-id set keeps both ids. -/
theorem stale_completion_sets_zero (impl : Implementation) (ra rb : Request)
    (hkind : ra.reports_completion = true)
    (ha : (impl.handle_request ra).2 ≠ [])
    (hb : ((impl.handle_request ra).1.handle_request rb).2 ≠ []) :
    ((impl.handle_request ra).1.handle_request rb).1.task_id = some rb.task_id ∧
    rb.task_id ≠ ra.task_id ∧
    ∃ callback,
      (impl.handle_request ra).2.filterMap CommandCall.callback? = [callback] ∧
      (callback ((impl.handle_request ra).1.handle_request rb).1).task_id = some 0 ∧
      (callback ((impl.handle_request ra).1.handle_request rb).1).task_id
        ≠ some rb.task_id ∧
      (callback ((impl.handle_request ra).1.handle_request rb).1).task_ids
        = insert rb.task_id (insert ra.task_id impl.task_ids) := by
  have hva := (accepted_iff impl ra).1 ha
  have hvb := (accepted_iff _ rb).1 hb
  have hsa := (handle_request_accepted impl ra hva).1
  have hsb := (handle_request_accepted _ rb hvb).1
  obtain ⟨_, hnew, hzero⟩ := (is_valid_request_iff _ _ _).1 hvb
  refine ⟨by rw [hsb], ?_, _, callbacks_of_accepted impl ra hkind ha, rfl, ?_, ?_⟩
  · intro heq
    apply hnew
    rw [hsa, heq]
    exact Finset.mem_insert_self _ _
  · simp only [Option.some.injEq, ne_eq]
    exact fun h => hzero h.symm
  · rw [hsb, hsa]

/-- C7, witness: dock request 1, then pause request 2, then the completion of 1. -/
theorem stale_completion_sets_zero_witness :
    (Request.dock ⟨"mock_robot", 1, "mock_dock"⟩).reports_completion = true ∧
    (mock_client.handle_request (Request.dock ⟨"mock_robot", 1, "mock_dock"⟩)).2 ≠ [] ∧
    ((mock_client.handle_request (Request.dock ⟨"mock_robot", 1, "mock_dock"⟩)).1.handle_request
      (Request.pause ⟨"mock_robot", 2⟩)).2 ≠ [] ∧
    ∃ callback,
      (mock_client.handle_request (Request.dock ⟨"mock_robot", 1, "mock_dock"⟩)).2.filterMap
        CommandCall.callback? = [callback] ∧
      (callback
        ((mock_client.handle_request (Request.dock ⟨"mock_robot", 1, "mock_dock"⟩)).1.handle_request
          (Request.pause ⟨"mock_robot", 2⟩)).1).task_id = some 0 :=
  have ha : (mock_client.handle_request (Request.dock ⟨"mock_robot", 1, "mock_dock"⟩)).2 ≠ [] :=
    (accepted_iff _ _).2 (by decide)
  have hb : ((mock_client.handle_request
      (Request.dock ⟨"mock_robot", 1, "mock_dock"⟩)).1.handle_request
        (Request.pause ⟨"mock_robot", 2⟩)).2 ≠ [] :=
    (accepted_iff _ _).2 (by decide)
  ⟨rfl, ha, hb,
    (stale_completion_sets_zero mock_client (Request.dock ⟨"mock_robot", 1, "mock_dock"⟩)
      (Request.pause ⟨"mock_robot", 2⟩) rfl ha hb).2.2.imp
        fun _ h => ⟨h.1, h.2.1⟩⟩

/-- C8, counterexample: the client of the tests accepts the dock request with id 1;
when the callback handed to `dock` is then invoked, the current task id is not
absent. -/
theorem completion_counterexample :
    (mock_client.handle_request (Request.dock ⟨"mock_robot", 1, "mock_dock"⟩)).1.task_id
      = some 1 ∧
    ¬ ∀ callback ∈
        (mock_client.handle_request (Request.dock ⟨"mock_robot", 1, "mock_dock"⟩)).2.filterMap
          CommandCall.callback?,
      (callback
        (mock_client.handle_request (Request.dock ⟨"mock_robot", 1, "mock_dock"⟩)).1).task_id
        = none := by
  refine ⟨by decide, ?_⟩
  rw [callbacks_of_accepted mock_client (Request.dock ⟨"mock_robot", 1, "mock_dock"⟩) rfl
    ((accepted_iff _ _).2 (by decide))]
  intro h
  have h2 := h _ (List.mem_singleton_self _)
  simp at h2

/-- C8, amended (completion sets the current task id to 0): after a dock, navigation
or relocalization request is accepted and the completion callback handed to the
driver is invoked with no other request accepted in between, the current task id
holds the value 0; the seen-id set is as the acceptance left it. -/
theorem completion_sets_zero (impl : Implementation) (r : Request)
    (hkind : r.reports_completion = true) (hacc : (impl.handle_request r).2 ≠ []) :
    ∃ callback,
      (impl.handle_request r).2.filterMap CommandCall.callback? = [callback] ∧
      (callback (impl.handle_request r).1).task_id = some 0 ∧
      (callback (impl.handle_request r).1).task_ids = insert r.task_id impl.task_ids := by
  have hv := (accepted_iff impl r).1 hacc
  refine ⟨_, callbacks_of_accepted impl r hkind hacc, rfl, ?_⟩
  rw [(handle_request_accepted impl r hv).1]

/-- C8, witness: the navigation request with id 4 of the tests and its completion. -/
theorem completion_sets_zero_witness :
    (Request.navigation ⟨"mock_robot", 4, []⟩).reports_completion = true ∧
    (mock_client.handle_request
      (Request.navigation ⟨"mock_robot", 4, []⟩)).2 ≠ [] ∧
    ∃ callback,
      (mock_client.handle_request
        (Request.navigation ⟨"mock_robot", 4, []⟩)).2.filterMap CommandCall.callback?
        = [callback] ∧
      (callback (mock_client.handle_request
        (Request.navigation ⟨"mock_robot", 4, []⟩)).1).task_id = some 0 ∧
      (callback (mock_client.handle_request
        (Request.navigation ⟨"mock_robot", 4, []⟩)).1).task_ids = insert 4 ∅ :=
  have hacc : (mock_client.handle_request
      (Request.navigation ⟨"mock_robot", 4, []⟩)).2 ≠ [] :=
    (accepted_iff _ _).2 (by decide)
  ⟨rfl, hacc, completion_sets_zero mock_client (Request.navigation ⟨"mock_robot", 4, []⟩) rfl hacc⟩

/-- C9, counterexample: the client of the tests, as `make` returns it, accepts the
dock request with id 1 and the driver then reports its completion. The current task
id is then the value 0: it is not absent, and it is not the id of an accepted
request, since 0 is not in the seen-id set. -/
theorem current_task_counterexample :
    make "mock_robot" "mock_robot_model" true true true = some mock_client ∧
    ((World.fresh mock_client).run
      [Event.request (Request.dock ⟨"mock_robot", 1, "mock_dock"⟩),
        Event.completion 1]).impl.task_id = some 0 ∧
    ¬ (((World.fresh mock_client).run
        [Event.request (Request.dock ⟨"mock_robot", 1, "mock_dock"⟩),
          Event.completion 1]).impl.task_id = none ∨
      ∃ id,
        ((World.fresh mock_client).run
          [Event.request (Request.dock ⟨"mock_robot", 1, "mock_dock"⟩),
            Event.completion 1]).impl.task_id = some id ∧
        id ∈ ((World.fresh mock_client).run
          [Event.request (Request.dock ⟨"mock_robot", 1, "mock_dock"⟩),
            Event.completion 1]).impl.task_ids ∧
        id ∉ ((World.fresh mock_client).run
          [Event.request (Request.dock ⟨"mock_robot", 1, "mock_dock"⟩),
            Event.completion 1]).completed) := by
  have hid : ((World.fresh mock_client).run
      [Event.request (Request.dock ⟨"mock_robot", 1, "mock_dock"⟩),
        Event.completion 1]).impl.task_id = some 0 := by decide
  have hids : (0 : TaskId) ∉ ((World.fresh mock_client).run
      [Event.request (Request.dock ⟨"mock_robot", 1, "mock_dock"⟩),
        Event.completion 1]).impl.task_ids := by decide
  refine ⟨by decide, hid, ?_⟩
  rintro (hnone | ⟨id, hsome, hmem, _⟩)
  · rw [hid] at hnone
    exact Option.noConfusion hnone
  · rw [hid, Option.some.injEq] at hsome
    exact hids (hsome ▸ hmem)

/-- C9, amended (current-task invariant): in every state a client reaches from the
one `make` returns, by any sequence of request deliveries, completion-callback
invocations and ticks, the current task id is absent, or holds the value 0 (a
completion callback stored it), or is the id of a request accepted earlier (a member
of the seen-id set) whose completion has not been reported. -/
theorem current_task_invariant (name model : String) (ch sh mw : Bool)
    (impl : Implementation) (hmake : make name model ch sh mw = some impl)
    (events : List Event) :
    ((World.fresh impl).run events).impl.task_id = none ∨
    ((World.fresh impl).run events).impl.task_id = some 0 ∨
    ∃ id, ((World.fresh impl).run events).impl.task_id = some id ∧
      id ∈ ((World.fresh impl).run events).impl.task_ids ∧
      id ∉ ((World.fresh impl).run events).completed := by
  have hnone := (make_eq_some _ _ _ _ _ _ hmake).2.2.1
  have hcons := consistent_run events _ (callbacks_clear_fresh impl)
    (consistent_fresh impl hnone)
  cases hid : ((World.fresh impl).run events).impl.task_id with
  | none => exact Or.inl rfl
  | some id =>
    rcases hcons.2.2 id hid with h0 | hseen
    · exact Or.inr (Or.inl (by rw [h0]))
    · exact Or.inr (Or.inr ⟨id, rfl, hseen⟩)

/-- C9, witness: the client of the tests after dock request 1, the completion of
task 1, a tick and pause request 2. -/
theorem current_task_invariant_witness :
    make "mock_robot" "mock_robot_model" true true true = some mock_client ∧
    (((World.fresh mock_client).run
        (Event.request (Request.dock ⟨"mock_robot", 1, "mock_dock"⟩) :: test_events)).impl.task_id
        = none ∨
      ((World.fresh mock_client).run
        (Event.request (Request.dock ⟨"mock_robot", 1, "mock_dock"⟩) :: test_events)).impl.task_id
        = some 0 ∨
      ∃ id,
        ((World.fresh mock_client).run
          (Event.request (Request.dock ⟨"mock_robot", 1, "mock_dock"⟩) ::
            test_events)).impl.task_id = some id ∧
        id ∈ ((World.fresh mock_client).run
          (Event.request (Request.dock ⟨"mock_robot", 1, "mock_dock"⟩) ::
            test_events)).impl.task_ids ∧
        id ∉ ((World.fresh mock_client).run
          (Event.request (Request.dock ⟨"mock_robot", 1, "mock_dock"⟩) ::
            test_events)).completed) :=
  ⟨by decide,
    current_task_invariant "mock_robot" "mock_robot_model" true true true mock_client
      (by decide)
      (Event.request (Request.dock ⟨"mock_robot", 1, "mock_dock"⟩) :: test_events)⟩

/-- C10 (the seen-id set only grows): after any history, every client operation, a
request handler that accepts or rejects, a completion callback, or a tick, leaves
the seen-id set a superset of what it was before the operation. -/
theorem seen_ids_only_grow (impl : Implementation) (history : List Event) (e : Event) :
    ((World.fresh impl).run history).impl.task_ids ⊆
      (((World.fresh impl).run history).step e).impl.task_ids :=
  task_ids_subset_step _ e (callbacks_clear_run history _ (callbacks_clear_fresh impl))

/-! ## Claims on the manager -/

theorem Vector2d.norm_sub_comm (a b : Vector2d) : (a - b).norm = (b - a).norm := by
  show Real.sqrt ((a.x - b.x) ^ 2 + (a.y - b.y) ^ 2) =
    Real.sqrt ((b.x - a.x) ^ 2 + (b.y - a.y) ^ 2)
  congr 1
  ring

theorem Vector2d.sub_x (a b : Vector2d) : (a - b).x = a.x - b.x := rfl

theorem Vector2d.sub_y (a b : Vector2d) : (a - b).y = a.y - b.y := rfl

theorem Vector2d.add_x (a b : Vector2d) : (a + b).x = a.x + b.x := rfl

theorem Vector2d.add_y (a b : Vector2d) : (a + b).y = a.y + b.y := rfl

theorem Vector2d.smul_x (s : ℝ) (a : Vector2d) : (s * a).x = s * a.x := rfl

theorem Vector2d.smul_y (s : ℝ) (a : Vector2d) : (s * a).y = s * a.y := rfl

theorem Vector2d.div_x (a : Vector2d) (s : ℝ) : (a / s).x = a.x / s := rfl

theorem Vector2d.div_y (a : Vector2d) (s : ℝ) : (a / s).y = a.y / s := rfl

theorem Vector2d.norm_nonneg (a : Vector2d) : 0 ≤ a.norm :=
  Real.sqrt_nonneg _

theorem Vector2d.norm_sq (a : Vector2d) : a.norm ^ 2 = a.x ^ 2 + a.y ^ 2 :=
  Real.sq_sqrt (add_nonneg (sq_nonneg _) (sq_nonneg _))

theorem Vector2d.sq_pos_of_ne (p0 p1 : Vector2d) (h : p0 ≠ p1) :
    0 < (p1 - p0).x ^ 2 + (p1 - p0).y ^ 2 := by
  rw [Vector2d.sub_x, Vector2d.sub_y]
  by_contra hle
  have hx := sq_nonneg (p1.x - p0.x)
  have hy := sq_nonneg (p1.y - p0.y)
  have hx0 : (p1.x - p0.x) ^ 2 = 0 := by linarith
  have hy0 : (p1.y - p0.y) ^ 2 = 0 := by linarith
  apply h
  cases p0
  cases p1
  simp only [Vector2d.mk.injEq]
  simp only [pow_eq_zero_iff, ne_eq, OfNat.ofNat_ne_zero, not_false_eq_true] at hx0 hy0
  constructor <;> linarith

theorem Vector2d.norm_pos_of_ne (p0 p1 : Vector2d) (h : p0 ≠ p1) : 0 < (p1 - p0).norm :=
  Real.sqrt_pos.2 (Vector2d.sq_pos_of_ne p0 p1 h)

/-- The projection of `p_l` on the unit vector `d / |d|` is `p_l . d / |d|`. -/
theorem Vector2d.dot_unit (p_l d : Vector2d) :
    p_l.dot (d / d.norm) = p_l.dot d / d.norm := by
  simp only [Vector2d.dot, Vector2d.div_x, Vector2d.div_y]
  ring

/-- The squared length of the part of `p_l` that is perpendicular to `d`. -/
theorem Vector2d.perpendicular_sq (p_l d : Vector2d) (hd : 0 < d.x ^ 2 + d.y ^ 2) :
    (p_l - p_l.dot (d / d.norm) * (d / d.norm)).x ^ 2 +
      (p_l - p_l.dot (d / d.norm) * (d / d.norm)).y ^ 2 =
      d.cross p_l ^ 2 / (d.x ^ 2 + d.y ^ 2) := by
  have hn : d.norm * d.norm = d.x ^ 2 + d.y ^ 2 := by
    rw [← sq, Vector2d.norm_sq]
  have hn0 : d.norm ≠ 0 := by
    intro h0
    rw [h0] at hn
    linarith
  have hs0 : d.x ^ 2 + d.y ^ 2 ≠ 0 := ne_of_gt hd
  have ex : (p_l - p_l.dot (d / d.norm) * (d / d.norm)).x =
      p_l.x - p_l.dot d * d.x / (d.x ^ 2 + d.y ^ 2) := by
    rw [Vector2d.sub_x, Vector2d.smul_x, Vector2d.div_x, Vector2d.dot_unit, ← hn]
    field_simp
  have ey : (p_l - p_l.dot (d / d.norm) * (d / d.norm)).y =
      p_l.y - p_l.dot d * d.y / (d.x ^ 2 + d.y ^ 2) := by
    rw [Vector2d.sub_y, Vector2d.smul_y, Vector2d.div_y, Vector2d.dot_unit, ← hn]
    field_simp
  rw [ex, ey]
  simp only [Vector2d.dot, Vector2d.cross]
  field_simp
  ring

/-- The length of the perpendicular part, `|d x p_l| / |d|`. -/
theorem Vector2d.perpendicular_norm (p_l d : Vector2d) (hd : 0 < d.x ^ 2 + d.y ^ 2) :
    (p_l - p_l.dot (d / d.norm) * (d / d.norm)).norm = |d.cross p_l| / d.norm := by
  show Real.sqrt _ = _
  rw [Vector2d.perpendicular_sq p_l d hd, Real.sqrt_div (sq_nonneg _), Real.sqrt_sq_eq_abs]
  rfl

/-- No point `t * d` of the line through the origin along `d` is closer to `p_l`
than the perpendicular distance. -/
theorem Vector2d.perpendicular_le (p_l d : Vector2d) (hd : 0 < d.x ^ 2 + d.y ^ 2) (t : ℝ) :
    |d.cross p_l| / d.norm ≤ (p_l - t * d).norm := by
  rw [← Real.sqrt_sq_eq_abs]
  show Real.sqrt _ / Real.sqrt _ ≤ Real.sqrt _
  rw [← Real.sqrt_div (sq_nonneg _)]
  apply Real.sqrt_le_sqrt
  rw [div_le_iff₀ hd, Vector2d.sub_x, Vector2d.sub_y, Vector2d.smul_x, Vector2d.smul_y]
  simp only [Vector2d.cross]
  nlinarith [sq_nonneg (p_l.x * d.x + p_l.y * d.y - t * (d.x ^ 2 + d.y ^ 2))]

/-- The foot of the perpendicular is at the perpendicular distance. -/
theorem Vector2d.perpendicular_attained (p_l d : Vector2d) (hd : 0 < d.x ^ 2 + d.y ^ 2) :
    (p_l - (p_l.dot d / (d.x ^ 2 + d.y ^ 2)) * d).norm = |d.cross p_l| / d.norm := by
  have hs0 : d.x ^ 2 + d.y ^ 2 ≠ 0 := ne_of_gt hd
  rw [← Real.sqrt_sq_eq_abs]
  show Real.sqrt _ = Real.sqrt _ / Real.sqrt _
  rw [← Real.sqrt_div (sq_nonneg _)]
  congr 1
  rw [Vector2d.sub_x, Vector2d.sub_y, Vector2d.smul_x, Vector2d.smul_y]
  simp only [Vector2d.dot, Vector2d.cross]
  field_simp
  ring

theorem Vector2d.eq_of_coordinates (a b : Vector2d) (hx : a.x = b.x) (hy : a.y = b.y) :
    a = b := by
  cases a
  cases b
  simp only [Vector2d.mk.injEq]
  exact ⟨hx, hy⟩

theorem Vector2d.sub_add_smul (c p0 d : Vector2d) (t : ℝ) :
    c - (p0 + t * d) = (c - p0) - t * d := by
  apply Vector2d.eq_of_coordinates
  · simp only [Vector2d.sub_x, Vector2d.add_x, Vector2d.smul_x]
    ring
  · simp only [Vector2d.sub_y, Vector2d.add_y, Vector2d.smul_y]
    ring

/-! ## Claims on the client tick and on the graph utilities -/

/-- C15 (empty graph): on a graph with no waypoint `find_nearest_waypoint` returns
no waypoint, the null pointer it started from, with the infinite distance. -/
theorem nearest_waypoint_empty_graph (graph : agv.Graph) (coordinates : Vector2d)
    (h : graph.num_waypoints = 0) :
    manager.find_nearest_waypoint graph coordinates = (none, ⊤) := by
  simp only [manager.find_nearest_waypoint, h, List.range_zero, List.foldl_nil]

/-- C13 (distance to lane): for a lane whose ends are waypoints of the graph at
different positions `p0` and `p1`, `distance_to_lane` returns
`|cross(p1 - p0, c - p0)| / |p1 - p0|`, which is the least distance from `c` to a
point `p0 + t (p1 - p0)` of the line through `p0` and `p1`. -/
theorem distance_to_lane_perpendicular (lane : agv.Lane) (graph : agv.Graph)
    (c : Vector2d) (entry_wp exit_wp : agv.Waypoint)
    (hentry : graph.get_waypoint lane.entry.waypoint_index = some entry_wp)
    (hexit : graph.get_waypoint lane.exit.waypoint_index = some exit_wp)
    (hne : entry_wp.get_location ≠ exit_wp.get_location) :
    manager.distance_to_lane lane graph c =
      some (|(exit_wp.get_location - entry_wp.get_location).cross
          (c - entry_wp.get_location)| /
        (exit_wp.get_location - entry_wp.get_location).norm) ∧
    (∀ t : ℝ,
      |(exit_wp.get_location - entry_wp.get_location).cross (c - entry_wp.get_location)| /
          (exit_wp.get_location - entry_wp.get_location).norm ≤
        (c - (entry_wp.get_location +
          t * (exit_wp.get_location - entry_wp.get_location))).norm) ∧
    ∃ t : ℝ,
      (c - (entry_wp.get_location +
          t * (exit_wp.get_location - entry_wp.get_location))).norm =
        |(exit_wp.get_location - entry_wp.get_location).cross (c - entry_wp.get_location)| /
          (exit_wp.get_location - entry_wp.get_location).norm := by
  have hd := Vector2d.sq_pos_of_ne _ _ hne
  refine ⟨?_, ?_, ?_⟩
  · simp only [manager.distance_to_lane, hentry, hexit]
    rw [Vector2d.perpendicular_norm _ _ hd]
  · intro t
    rw [Vector2d.sub_add_smul]
    exact Vector2d.perpendicular_le _ _ hd t
  · refine ⟨(c - entry_wp.get_location).dot (exit_wp.get_location - entry_wp.get_location) /
      ((exit_wp.get_location - entry_wp.get_location).x ^ 2 +
        (exit_wp.get_location - entry_wp.get_location).y ^ 2), ?_⟩
    rw [Vector2d.sub_add_smul]
    exact Vector2d.perpendicular_attained _ _ hd

/-- C15, witness: a graph to which nothing has been added. -/
theorem nearest_waypoint_empty_graph_witness :
    (agv.Graph.mk [] []).num_waypoints = 0 ∧
    manager.find_nearest_waypoint (agv.Graph.mk [] []) ⟨1, 0⟩ = (none, ⊤) :=
  ⟨rfl, nearest_waypoint_empty_graph (agv.Graph.mk [] []) ⟨1, 0⟩ rfl⟩

theorem manager.test_lane_ends : (⟨0, 0⟩ : Vector2d) ≠ ⟨10, 0⟩ := by
  intro h
  have hx := congrArg Vector2d.x h
  norm_num at hx

/-- C13, witness: the lane from waypoint 0 at (0, 0) to waypoint 1 at (10, 0) of the
test graph, and the coordinate (3, 4). -/
theorem distance_to_lane_perpendicular_witness :
    manager.test_graph.get_waypoint 0 = some ⟨"test_level", ⟨0, 0⟩⟩ ∧
    manager.test_graph.get_waypoint 1 = some ⟨"test_level", ⟨10, 0⟩⟩ ∧
    (⟨0, 0⟩ : Vector2d) ≠ ⟨10, 0⟩ ∧
    manager.distance_to_lane ⟨⟨0⟩, ⟨1⟩⟩ manager.test_graph ⟨3, 4⟩ =
      some (|((⟨10, 0⟩ : Vector2d) - ⟨0, 0⟩).cross ((⟨3, 4⟩ : Vector2d) - ⟨0, 0⟩)| /
        ((⟨10, 0⟩ : Vector2d) - ⟨0, 0⟩).norm) :=
  ⟨rfl, rfl, manager.test_lane_ends,
    (distance_to_lane_perpendicular ⟨⟨0⟩, ⟨1⟩⟩ manager.test_graph ⟨3, 4⟩
      ⟨"test_level", ⟨0, 0⟩⟩ ⟨"test_level", ⟨10, 0⟩⟩ rfl rfl manager.test_lane_ends).1⟩

/-- C11, counterexample: when the status handle returns the target waypoint index
4294967296, or -1 for no target, the state the client of the tests hands to the
middleware carries the index 0, respectively 4294967295, not the value returned.
And this client, which has no current task, hands over a state whose task id is the
absent optional, not the value 0. -/
theorem client_tick_counterexample :
    (¬ ∀ state ∈
        (mock_client.run_once { test_status with target_path_waypoint_index := 4294967296 }).2,
      (state.target_path_waypoint_index : Int) = 4294967296) ∧
    (¬ ∀ state ∈
        (mock_client.run_once { test_status with target_path_waypoint_index := -1 }).2,
      (state.target_path_waypoint_index : Int) = -1) ∧
    mock_client.task_id = none ∧
    (¬ ∀ state ∈ (mock_client.run_once test_status).2, state.task_id = some 0) := by
  refine ⟨?_, ?_, rfl, ?_⟩ <;> decide

/-- C11, amended (client tick): in every client state `run_once` hands exactly one
RobotState to the middleware; its name and model are the client's, its task id is
the client's optional current task id as it is, absent when that is absent, its
mode, battery and location are the values the status handle returns, and its target
waypoint index is the value the status handle returns reduced modulo 2^32. No call
is made on the command handle and the current task id and the seen-id set are left
as they were. -/
theorem client_tick (w : World) (status_handle : StatusHandle) :
    (∃ state : RobotState,
      (w.step (Event.run_once status_handle)).sent_states = w.sent_states ++ [state] ∧
      state.name = w.impl.robot_name ∧
      state.model = w.impl.robot_model ∧
      state.task_id = w.impl.task_id ∧
      state.mode = status_handle.mode ∧
      state.battery_percent = status_handle.battery_percent ∧
      state.location = status_handle.location ∧
      (state.target_path_waypoint_index : Int) =
        status_handle.target_path_waypoint_index % 4294967296) ∧
    (w.step (Event.run_once status_handle)).command_calls = w.command_calls ∧
    (w.step (Event.run_once status_handle)).impl.task_id = w.impl.task_id ∧
    (w.step (Event.run_once status_handle)).impl.task_ids = w.impl.task_ids := by
  refine ⟨⟨_, rfl, rfl, rfl, rfl, rfl, rfl, rfl, ?_⟩, rfl, rfl, rfl⟩
  exact Int.toNat_of_nonneg (Int.emod_nonneg _ (by decide))

/-! ## Claims on the manager's request validation and on the client factory -/

theorem lt_sqrt_iff_sq (t d2 : ℝ) : t < Real.sqrt d2 ↔ t < 0 ∨ t ^ 2 < d2 := by
  by_cases ht : 0 ≤ t
  · rw [Real.lt_sqrt ht]
    constructor
    · exact Or.inr
    · rintro (hneg | hsq)
      · exact absurd hneg (not_lt.2 ht)
      · exact hsq
  · have hneg : t < 0 := not_le.1 ht
    constructor
    · exact fun _ => Or.inl hneg
    · exact fun _ => lt_of_lt_of_le hneg (Real.sqrt_nonneg _)

/-- The comparison the manager makes on squares is the comparison of the threshold
with `distance_to_waypoint`. -/
theorem Manager.too_far_iff (m : Manager.Implementation) (index : Nat)
    (position : Rat × Rat) (location : Location)
    (hget : m.graph.get? index = some position) :
    m.too_far index location = true ↔
      (m.relocalization_threshold : ℝ) <
        manager.distance_to_waypoint (Manager.graph_waypoint position) location.coordinates := by
  simp only [Manager.Implementation.too_far, hget, decide_eq_true_eq,
    manager.distance_to_waypoint, Manager.graph_waypoint, Location.coordinates]
  show _ ↔ _ < Real.sqrt _
  rw [lt_sqrt_iff_sq, Vector2d.sub_x, Vector2d.sub_y]
  dsimp only
  constructor
  · rintro (h | h)
    · exact Or.inl (by exact_mod_cast h)
    · exact Or.inr (by exact_mod_cast h)
  · rintro (h | h)
    · exact Or.inl (by exact_mod_cast h)
    · exact Or.inr (by exact_mod_cast h)

/-- C17 (relocalization guard): for a registered robot, on a graph of N waypoints,
`request_relocalization` returns absent exactly when `last_wp_idx >= N` or the
distance from graph waypoint `last_wp_idx` to the location exceeds the
relocalization threshold; otherwise it returns a new task id, the counter's next
value. -/
theorem relocalization_guard (m : Manager.Implementation) (robot_name : String)
    (location : Location) (last_wp_idx : Nat) (hregistered : robot_name ∈ m.robots) :
    ((m.request_relocalization robot_name location last_wp_idx).2 = none ↔
      m.graph.length ≤ last_wp_idx ∨
      ∃ position, m.graph.get? last_wp_idx = some position ∧
        (m.relocalization_threshold : ℝ) <
          manager.distance_to_waypoint (Manager.graph_waypoint position)
            location.coordinates) ∧
    ((m.request_relocalization robot_name location last_wp_idx).2 = none ∨
      (m.request_relocalization robot_name location last_wp_idx).2 =
        some m.next_task_id) := by
  by_cases hlen : m.graph.length ≤ last_wp_idx
  · simp [Manager.Implementation.request_relocalization, hregistered, hlen]
  · obtain ⟨position, hget⟩ : ∃ position, m.graph.get? last_wp_idx = some position := by
      rw [List.get?_eq_getElem?]
      exact ⟨_, List.getElem?_eq_getElem (not_le.1 hlen)⟩
    have hfar := Manager.too_far_iff m last_wp_idx position location hget
    by_cases hf : m.too_far last_wp_idx location = true
    · refine ⟨?_, Or.inl ?_⟩
      · simp only [Manager.Implementation.request_relocalization, hregistered, hlen, hf,
          not_true_eq_false, if_false, if_true, false_or, true_iff]
        exact ⟨position, hget, hfar.1 hf⟩
      · simp [Manager.Implementation.request_relocalization, hregistered, hlen, hf]
    · refine ⟨?_, Or.inr ?_⟩
      · simp only [Manager.Implementation.request_relocalization, hregistered, hlen, hf,
          not_true_eq_false, if_false, false_or, Manager.Implementation.issue]
        constructor
        · intro h
          exact Option.noConfusion h
        · rintro ⟨p, hp, hlt⟩
          rw [hget, Option.some.injEq] at hp
          subst hp
          exact absurd (hfar.2 hlt) hf
      · simp [Manager.Implementation.request_relocalization, hregistered, hlen, hf,
          Manager.Implementation.issue]

/-- C17, witness: the relocalization requests of the tests: accepted at waypoint 0,
absent for waypoint index 100 and for waypoint 5, which is too far away. -/
theorem relocalization_guard_witness :
    "test_robot_1" ∈ Manager.test_manager.robots ∧
    (Manager.test_manager.request_relocalization "test_robot_1"
      (Manager.test_level_location 0 0) 0).2 = some 1 ∧
    (Manager.test_manager.request_relocalization "test_robot_1"
      (Manager.test_level_location 0 0) 100).2 = none ∧
    (Manager.test_manager.request_relocalization "test_robot_1"
      (Manager.test_level_location 0 0) 5).2 = none ∧
    ((Manager.test_manager.request_relocalization "test_robot_1"
        (Manager.test_level_location 0 0) 5).2 = none ↔
      Manager.test_manager.graph.length ≤ 5 ∨
      ∃ position, Manager.test_manager.graph.get? 5 = some position ∧
        (Manager.test_manager.relocalization_threshold : ℝ) <
          manager.distance_to_waypoint (Manager.graph_waypoint position)
            (Manager.test_level_location 0 0).coordinates) :=
  ⟨by decide, by with_unfolding_all decide, by with_unfolding_all decide,
    by with_unfolding_all decide,
    (relocalization_guard Manager.test_manager "test_robot_1"
      (Manager.test_level_location 0 0) 5 (by decide)).1⟩

/-- C18 (navigation validation): for a registered robot, on a graph of N waypoints,
`request_navigation` returns absent exactly when the path is empty or one of its
waypoints has an index that is not below N; otherwise it returns a new task id, the
counter's next value. -/
theorem navigation_validation (m : Manager.Implementation) (robot_name : String)
    (path : List Waypoint) (hregistered : robot_name ∈ m.robots) :
    ((m.request_navigation robot_name path).2 = none ↔
      path = [] ∨ ∃ waypoint ∈ path, m.graph.length ≤ waypoint.index) ∧
    ((path ≠ [] ∧ ∀ waypoint ∈ path, waypoint.index < m.graph.length) →
      (m.request_navigation robot_name path).2 = some m.next_task_id) := by
  by_cases hempty : path = []
  · simp [Manager.Implementation.request_navigation, hregistered, hempty]
  · have hne : path.isEmpty = false := by
      cases path with
      | nil => exact absurd rfl hempty
      | cons _ _ => rfl
    by_cases hbad : ∃ waypoint ∈ path, m.graph.length ≤ waypoint.index
    · have hany : (path.any fun waypoint => decide (m.graph.length ≤ waypoint.index)) = true := by
        simpa using hbad
      have hres : (m.request_navigation robot_name path).2 = none := by
        simp [Manager.Implementation.request_navigation, hregistered, hne, hany]
      refine ⟨⟨fun _ => Or.inr hbad, fun _ => hres⟩, ?_⟩
      rintro ⟨_, hall⟩
      obtain ⟨waypoint, hmem, hle⟩ := hbad
      exact absurd (hall waypoint hmem) (not_lt.2 hle)
    · have hany : (path.any fun waypoint => decide (m.graph.length ≤ waypoint.index)) = false := by
        simpa using hbad
      have hres : (m.request_navigation robot_name path).2 = some m.next_task_id := by
        simp [Manager.Implementation.request_navigation, hregistered, hne, hany,
          Manager.Implementation.issue]
      refine ⟨⟨fun h => ?_, fun h => ?_⟩, fun _ => hres⟩
      · rw [hres] at h
        exact Option.noConfusion h
      · rcases h with h | h
        · exact absurd h hempty
        · exact absurd h hbad

/-- C18, witness: the navigation requests of the tests: a path through waypoints 0
and 1 gets id 1, a path through waypoint 100 and an empty path get nothing. -/
theorem navigation_validation_witness :
    "test_robot_2" ∈ Manager.test_manager.robots ∧
    (Manager.test_manager.request_navigation "test_robot_2"
      [⟨0, Manager.test_level_location 0 0⟩, ⟨1, Manager.test_level_location 10 0⟩]).2
      = some 1 ∧
    (Manager.test_manager.request_navigation "test_robot_2"
      [Manager.default_waypoint, { Manager.default_waypoint with index := 100 }]).2 = none ∧
    (Manager.test_manager.request_navigation "test_robot_2" []).2 = none :=
  ⟨by decide,
    ((navigation_validation Manager.test_manager "test_robot_2"
      [⟨0, Manager.test_level_location 0 0⟩, ⟨1, Manager.test_level_location 10 0⟩]
      (by decide)).2 (by decide)).trans (by decide),
    by decide, by decide⟩

/-- C19 (unknown robot): for a robot name that is not in the registry, each of
`request_pause`, `request_resume`, `request_dock`, `request_navigation` and
`request_relocalization` returns absent, whatever the other arguments are, and
leaves the manager as it was. -/
theorem unknown_robot (m : Manager.Implementation) (robot_name : String)
    (hunknown : robot_name ∉ m.robots) :
    m.request_pause robot_name = (m, none) ∧
    m.request_resume robot_name = (m, none) ∧
    (∀ dock_name, m.request_dock robot_name dock_name = (m, none)) ∧
    (∀ path, m.request_navigation robot_name path = (m, none)) ∧
    (∀ location last_wp_idx,
      m.request_relocalization robot_name location last_wp_idx = (m, none)) := by
  simp [Manager.Implementation.request_pause, Manager.Implementation.request_resume,
    Manager.Implementation.request_dock, Manager.Implementation.request_navigation,
    Manager.Implementation.request_relocalization, hunknown]

/-- C19, witness: the requests of the tests for a robot that is not registered. -/
theorem unknown_robot_witness :
    "test_robot_10" ∉ Manager.test_manager.robots ∧
    Manager.test_manager.request_pause "test_robot_10" = (Manager.test_manager, none) ∧
    Manager.test_manager.request_dock "test_robot_10" "mock_dock"
      = (Manager.test_manager, none) :=
  ⟨by decide,
    (unknown_robot Manager.test_manager "test_robot_10" (by decide)).1,
    (unknown_robot Manager.test_manager "test_robot_10" (by decide)).2.2.1 "mock_dock"⟩

/-- C20 (client factory): `Client::make` returns absent exactly when the robot name
is empty, the robot model is empty, or one of the command handle, the status handle
and the middleware is missing; otherwise it returns a client that holds the given
name and model, whose current task id is absent, whose seen-id set is empty and
which is not started. -/
theorem client_factory (robot_name robot_model : String)
    (command_handle status_handle middleware : Bool) :
    (make robot_name robot_model command_handle status_handle middleware = none ↔
      robot_name.isEmpty = true ∨ robot_model.isEmpty = true ∨ command_handle = false ∨
        status_handle = false ∨ middleware = false) ∧
    (make robot_name robot_model command_handle status_handle middleware = none ∨
      make robot_name robot_model command_handle status_handle middleware =
        some { robot_name := robot_name
               robot_model := robot_model
               task_id := none
               task_ids := ∅
               started := false
               command_handle := true
               status_handle := true
               middleware := true }) := by
  unfold make
  cases command_handle <;> cases status_handle <;> cases middleware <;>
    cases robot_name.isEmpty <;> cases robot_model.isEmpty <;> simp


/-! ## Claims on the factories, on starting a client and on the wiring of handlers -/

/-- C21, counterexample: the arguments of "All valid" in make_Manager.cpp, a fleet
name, a graph to which no waypoint was added, and every other field present, give a
manager, not absent. -/
theorem manager_factory_counterexample :
    ¬ (Manager.make "test_fleet" (some []) true true true true = none) := by
  decide

/-- C21, amended (manager factory): `Manager::make` returns absent whenever the
fleet name is empty, the graph is missing, or the server middleware or the
coordinate transformer is missing; with every field valid, whether or not the graph
has a waypoint, it returns a manager that is not started. -/
theorem manager_factory (fleet_name : String) (graph : Option (List (Rat × Rat)))
    (middleware to_robot_transform time_now_fn robot_updated_callback_fn : Bool) :
    ((fleet_name.isEmpty = true ∨ graph = none ∨ middleware = false ∨
        to_robot_transform = false) →
      Manager.make fleet_name graph middleware to_robot_transform time_now_fn
        robot_updated_callback_fn = none) ∧
    (∀ waypoints, fleet_name.isEmpty = false → graph = some waypoints →
      middleware = true → to_robot_transform = true → time_now_fn = true →
      robot_updated_callback_fn = true →
      ∃ manager, Manager.make fleet_name graph middleware to_robot_transform time_now_fn
          robot_updated_callback_fn = some manager ∧
        manager.started = false ∧ manager.fleet_name = fleet_name ∧
        manager.graph = waypoints) := by
  constructor
  · rintro (h | h | h | h)
    · simp [Manager.make, h]
    · subst h
      simp [Manager.make]
    · subst h
      cases graph <;> simp [Manager.make]
    · subst h
      cases graph <;> simp [Manager.make]
  · intro waypoints hname hgraph hm ht hn hc
    subst hgraph hm ht hn hc
    refine ⟨{ robots := [], graph := waypoints, relocalization_threshold := 10,
              current_task_id := 0, sent_requests := [], fleet_name := fleet_name,
              started := false }, ?_, rfl, rfl, rfl⟩
    simp [Manager.make, hname]

/-- C22 (zero frequency): on every client, `run(0)` and `start_async(0)` throw the
range error; there is no loop, so no callback is registered, `run_once` is not
called and no thread is spawned, and the client, its `started` flag included, is
left as it was. -/
theorem zero_frequency (impl : Implementation) (clock : List Time) :
    run impl 0 clock = (impl, Except.error StartError.range_error) ∧
    start_async impl 0 clock = (impl, Except.error StartError.range_error) ∧
    started (run impl 0 clock).1 = started impl ∧
    started (start_async impl 0 clock).1 = started impl :=
  ⟨rfl, rfl, rfl, rfl⟩

/-- C23, on the code: a client as `make` returns it is started with
`start_async(10)`, which succeeds. `started()` is still false afterwards, and a
second `start_async(10)`, like a `run(10)`, does not throw but enters the loop
again. After a successful `run(10)` instead, `started()` is true and both calls
throw the already-started error. -/
theorem already_started_evaluation (clock : List Time) :
    (start_async mock_client 10 clock).2 = Except.ok (mock_client.run 10 clock) ∧
    started (start_async mock_client 10 clock).1 = false ∧
    (start_async (start_async mock_client 10 clock).1 10 clock).2 =
      Except.ok (mock_client.run 10 clock) ∧
    (run (start_async mock_client 10 clock).1 10 clock).2 =
      Except.ok (Implementation.run { mock_client with started := true } 10 clock) ∧
    started (run mock_client 10 clock).1 = true ∧
    (run (run mock_client 10 clock).1 10 clock).2 = Except.error StartError.runtime_error ∧
    (start_async (run mock_client 10 clock).1 10 clock).2 =
      Except.error StartError.runtime_error := by
  exact ⟨rfl, rfl, rfl, rfl, rfl, rfl, rfl⟩

theorem run_loop_actions (duration : rmf_traffic.Duration) (t_prev : Time)
    (readings : List Time) :
    ∀ action ∈ Implementation.run_loop duration t_prev readings,
      action ≠ LoopAction.set_callbacks := by
  induction t_prev, readings using Implementation.run_loop.induct duration with
  | case1 t => simp [Implementation.run_loop]
  | case2 t now => simp [Implementation.run_loop]
  | case3 t now now2 rest hlt ih =>
    rw [Implementation.run_loop, if_pos hlt]
    exact ih
  | case4 t now now2 rest hlt ih =>
    rw [Implementation.run_loop, if_neg hlt]
    intro action hmem
    rcases List.mem_cons.1 hmem with rfl | hmem
    · exact fun h => LoopAction.noConfusion h
    · exact ih action hmem

/-- C24 (handler wiring): after `set_callbacks` the middleware holds five callbacks,
whatever it held before, each one the handler of its variant: a request that
arrives at the middleware is handled by `handle_pause_request`,
`handle_resume_request`, `handle_dock_request`, `handle_navigation_request` or
`handle_relocalization_request` according to its variant. `Implementation::run`
registers them first: every call of `run_once` comes after. -/
theorem handler_wiring (middleware : MockClientMiddleware) (impl : Implementation)
    (frequency : Nat) (clock : List Time) :
    (Implementation.set_callbacks middleware).pause_request_callback =
      some Implementation.handle_pause_request ∧
    (Implementation.set_callbacks middleware).resume_request_callback =
      some Implementation.handle_resume_request ∧
    (Implementation.set_callbacks middleware).dock_request_callback =
      some Implementation.handle_dock_request ∧
    (Implementation.set_callbacks middleware).navigation_request_callback =
      some Implementation.handle_navigation_request ∧
    (Implementation.set_callbacks middleware).relocalization_request_callback =
      some Implementation.handle_relocalization_request ∧
    (∀ (client : Implementation) (request : Request),
      (Implementation.set_callbacks middleware).received_request client request =
        client.handle_request request) ∧
    ∃ rest, impl.run frequency clock = LoopAction.set_callbacks :: rest ∧
      ∀ action ∈ rest, action ≠ LoopAction.set_callbacks := by
  refine ⟨rfl, rfl, rfl, rfl, rfl, ?_, _, rfl, ?_⟩
  · intro client request
    cases request <;> rfl
  · cases clock with
    | nil => simp
    | cons t_prev readings =>
      by_cases hconnected : impl.connected = true
      · simpa [hconnected] using run_loop_actions _ t_prev readings
      · simp [hconnected]

/-- C25 (a completed task is reported as 0): when a dock, navigation or
relocalization request is accepted and its completion callback is invoked with no
other request accepted in between, the state the next `run_once` hands to the
middleware carries task id 0, a present id of value 0; the completed id is still in
the seen-id set and a redelivery of the request is rejected. -/
theorem completed_task_reported_as_zero (impl : Implementation) (r : Request)
    (status_handle : StatusHandle)
    (hkind : r.reports_completion = true) (hacc : (impl.handle_request r).2 ≠ []) :
    ∃ callback,
      (impl.handle_request r).2.filterMap CommandCall.callback? = [callback] ∧
      (∃ state,
        ((callback (impl.handle_request r).1).run_once status_handle).2 = [state] ∧
        state.task_id = some 0) ∧
      r.task_id ∈ (callback (impl.handle_request r).1).task_ids ∧
      (callback (impl.handle_request r).1).handle_request r =
        (callback (impl.handle_request r).1, []) := by
  have hv := (accepted_iff impl r).1 hacc
  have hst := (handle_request_accepted impl r hv).1
  have hseen : r.task_id ∈
      ({ (impl.handle_request r).1 with task_id := some 0 } : Implementation).task_ids := by
    rw [hst]
    exact Finset.mem_insert_self _ _
  refine ⟨_, callbacks_of_accepted impl r hkind hacc, ⟨_, rfl, rfl⟩, hseen, ?_⟩
  apply handle_request_rejected
  simp [Implementation.is_valid_request, hseen]

/-- C25, witness: the dock request with id 1 of the tests, its completion, a tick
and the redelivery of the request. -/
theorem completed_task_reported_as_zero_witness :
    (Request.dock ⟨"mock_robot", 1, "mock_dock"⟩).reports_completion = true ∧
    (mock_client.handle_request (Request.dock ⟨"mock_robot", 1, "mock_dock"⟩)).2 ≠ [] ∧
    ∃ callback,
      (mock_client.handle_request
        (Request.dock ⟨"mock_robot", 1, "mock_dock"⟩)).2.filterMap CommandCall.callback?
        = [callback] ∧
      (∃ state,
        ((callback (mock_client.handle_request
          (Request.dock ⟨"mock_robot", 1, "mock_dock"⟩)).1).run_once test_status).2
          = [state] ∧
        state.task_id = some 0) ∧
      (1 : TaskId) ∈ (callback (mock_client.handle_request
        (Request.dock ⟨"mock_robot", 1, "mock_dock"⟩)).1).task_ids ∧
      (callback (mock_client.handle_request
          (Request.dock ⟨"mock_robot", 1, "mock_dock"⟩)).1).handle_request
          (Request.dock ⟨"mock_robot", 1, "mock_dock"⟩) =
        (callback (mock_client.handle_request
          (Request.dock ⟨"mock_robot", 1, "mock_dock"⟩)).1, []) :=
  have hacc : (mock_client.handle_request
      (Request.dock ⟨"mock_robot", 1, "mock_dock"⟩)).2 ≠ [] :=
    (accepted_iff _ _).2 (by decide)
  ⟨rfl, hacc,
    completed_task_reported_as_zero mock_client (Request.dock ⟨"mock_robot", 1, "mock_dock"⟩)
      test_status rfl hacc⟩

/-- C27 (target-index narrowing): the target waypoint index `run_once` publishes is
the value the status handle returns reduced modulo 2^32, always an index in
`[0, 2^32 - 1]`; it is the returned value when that is in `[0, 2^32 - 1]`, and the
returned value -1 is published as 4294967295. -/
theorem target_index_narrowing (impl : Implementation) (status_handle : StatusHandle) :
    ∃ state, (impl.run_once status_handle).2 = [state] ∧
      (state.target_path_waypoint_index : Int) =
        status_handle.target_path_waypoint_index % 4294967296 ∧
      state.target_path_waypoint_index < 4294967296 ∧
      (0 ≤ status_handle.target_path_waypoint_index →
        status_handle.target_path_waypoint_index < 4294967296 →
        (state.target_path_waypoint_index : Int) =
          status_handle.target_path_waypoint_index) ∧
      (status_handle.target_path_waypoint_index = -1 →
        state.target_path_waypoint_index = 4294967295) := by
  have hmod : ((status_handle.target_path_waypoint_index % 4294967296).toNat : Int) =
      status_handle.target_path_waypoint_index % 4294967296 :=
    Int.toNat_of_nonneg (Int.emod_nonneg _ (by decide))
  refine ⟨_, rfl, hmod, ?_, ?_, ?_⟩
  · show (status_handle.target_path_waypoint_index % 4294967296).toNat < 4294967296
    have hlt := Int.emod_lt_of_pos status_handle.target_path_waypoint_index
      (show (0 : Int) < 4294967296 by decide)
    omega
  · intro h0 hlt
    show ((status_handle.target_path_waypoint_index % 4294967296).toNat : Int) = _
    rw [hmod]
    exact Int.emod_eq_of_lt h0 hlt
  · intro hneg
    show (status_handle.target_path_waypoint_index % 4294967296).toNat = 4294967295
    rw [hneg]
    decide

theorem run_loop_chain (duration : rmf_traffic.Duration) (t_prev : Time)
    (readings : List Time) :
    ∀ previous : Time × Time, previous.2 = t_prev →
      List.Chain' (fun a b : Time => a ≤ b) readings →
      List.Chain (fun a b : Time × Time => a.2 + duration ≤ b.1 ∧ b.1 ≤ b.2) previous
        ((Implementation.run_loop duration t_prev readings).filterMap LoopAction.tick?) := by
  induction t_prev, readings using Implementation.run_loop.induct duration with
  | case1 t =>
    intro previous _ _
    simp [Implementation.run_loop]
  | case2 t now =>
    intro previous _ _
    simp [Implementation.run_loop]
  | case3 t now now2 rest hlt ih =>
    intro previous hprevious hclock
    rw [Implementation.run_loop, if_pos hlt]
    exact ih previous hprevious (List.Chain'.tail hclock)
  | case4 t now now2 rest hlt ih =>
    intro previous hprevious hclock
    rw [Implementation.run_loop, if_neg hlt]
    simp only [List.filterMap_cons, LoopAction.tick?, List.chain_cons]
    have hnow : now ≤ now2 := (List.chain'_cons.1 hclock).1
    refine ⟨⟨?_, hnow⟩, ih (now, now2) rfl (List.Chain'.tail (List.Chain'.tail hclock))⟩
    rw [hprevious]
    have hge := not_lt.1 hlt
    linarith

set_option maxRecDepth 100000 in
/-- C26, counterexample: at frequency 3 the period the code computes is 333333333
ns, since `1.0 / 3` is 0.333333333333333315 in `double` and the product with 10^9 is
cut to whole nanoseconds. The loop entered at instant 0 calls `run_once` in the
iteration that reads the clock at 333333333 ns, when three times the elapsed time is
still less than a second of 10^9 ns: less than 1/3 s has elapsed. -/
theorem fixed_period_pacing_counterexample :
    duration_per_iteration 3 = 333333333 ∧
    (mock_client.run 3 [0, 333333333, 333333333]).filterMap LoopAction.tick? =
      [(333333333, 333333333)] ∧
    3 * ((333333333 : Time) - 0) < 1000000000 := by
  refine ⟨?_, ?_, ?_⟩
  · decide
  · decide
  · decide

/-- C26, amended (fixed-period pacing): in `Implementation::run` with a frequency
f > 0 and a clock that does not go back, `run_once` is called only in an iteration
whose clock value is at least `d` after the instant last stored in `t_prev`, the
instant the loop was entered at first, and the instant then stored is not earlier
than that clock value; `d` is the period the code computes, `1.0 / f` in `double`
converted to whole nanoseconds by `from_seconds`. So the instants stored by
consecutive calls are at least `d` apart and the first is at least `d` after the
loop was entered. -/
theorem fixed_period_pacing (impl : Implementation) (frequency : Nat)
    (t_entry : Time) (readings : List Time)
    (_hfrequency : 0 < frequency)
    (hclock : List.Chain' (fun a b : Time => a ≤ b) (t_entry :: readings)) :
    List.Chain
        (fun a b : Time × Time => a.2 + duration_per_iteration frequency ≤ b.1 ∧ b.1 ≤ b.2)
        (t_entry, t_entry)
        ((impl.run frequency (t_entry :: readings)).filterMap LoopAction.tick?) ∧
    List.Chain (fun a b : Time => a + duration_per_iteration frequency ≤ b) t_entry
      (((impl.run frequency (t_entry :: readings)).filterMap LoopAction.tick?).map
        Prod.snd) := by
  have hchain : List.Chain
      (fun a b : Time × Time => a.2 + duration_per_iteration frequency ≤ b.1 ∧ b.1 ≤ b.2)
      (t_entry, t_entry)
      ((impl.run frequency (t_entry :: readings)).filterMap LoopAction.tick?) := by
    simp only [Implementation.run, List.filterMap_cons, LoopAction.tick?]
    by_cases hconnected : impl.connected = true
    · simp only [hconnected, if_true]
      exact run_loop_chain _ t_entry readings (t_entry, t_entry) rfl (List.Chain'.tail hclock)
    · simp [hconnected]
  refine ⟨hchain, ?_⟩
  have hmap := (List.chain_map (R := fun a b : Time => a + duration_per_iteration frequency ≤ b)
    Prod.snd (b := (t_entry, t_entry))
    (l := (impl.run frequency (t_entry :: readings)).filterMap LoopAction.tick?)).2
  apply hmap
  exact hchain.imp fun _ _ h => le_trans h.1 h.2

theorem test_clock_monotone :
    List.Chain' (fun a b : Time => a ≤ b) (0 :: test_clock) := by
  simp only [test_clock, List.chain'_cons, List.chain'_singleton, and_true]
  norm_num

set_option maxRecDepth 100000 in
/-- C26, witness: at frequency 2 the period computed is 500000000 ns; the loop is
entered at instant 0 and reads the clock at 1/4, 1/2, 3/4, 1, 3/2 and 2 seconds:
`run_once` is called twice, with the instants 3/4 s and 2 s stored. -/
theorem fixed_period_pacing_witness :
    0 < 2 ∧
    List.Chain' (fun a b : Time => a ≤ b) (0 :: test_clock) ∧
    duration_per_iteration 2 = 500000000 ∧
    (mock_client.run 2 (0 :: test_clock)).filterMap LoopAction.tick?
      = [(500000000, 750000000), (1500000000, 2000000000)] ∧
    List.Chain (fun a b : Time => a + duration_per_iteration 2 ≤ b) 0
      (((mock_client.run 2 (0 :: test_clock)).filterMap LoopAction.tick?).map Prod.snd) :=
  ⟨by decide, test_clock_monotone, by decide, by decide,
    (fixed_period_pacing mock_client 2 0 test_clock (by decide) test_clock_monotone).2⟩

/-! ## Further claims on the lanes -/

theorem Vector2d.perpendicular_eq_sqrt (p_l d : Vector2d) :
    |d.cross p_l| / d.norm = Real.sqrt (d.cross p_l ^ 2 / (d.x ^ 2 + d.y ^ 2)) := by
  rw [Real.sqrt_div (sq_nonneg _), Real.sqrt_sq_eq_abs]
  rfl

/-- The distance from `p_l` to the point `t * d` splits into the perpendicular part
and the part along `d`. -/
theorem Vector2d.norm_line (p_l d : Vector2d) (hd : 0 < d.x ^ 2 + d.y ^ 2) (t : ℝ) :
    (p_l - t * d).norm =
      Real.sqrt (d.cross p_l ^ 2 / (d.x ^ 2 + d.y ^ 2) +
        (p_l.dot d - t * (d.x ^ 2 + d.y ^ 2)) ^ 2 / (d.x ^ 2 + d.y ^ 2)) := by
  have hs0 : d.x ^ 2 + d.y ^ 2 ≠ 0 := ne_of_gt hd
  show Real.sqrt _ = Real.sqrt _
  congr 1
  rw [Vector2d.sub_x, Vector2d.sub_y, Vector2d.smul_x, Vector2d.smul_y]
  simp only [Vector2d.dot, Vector2d.cross]
  field_simp
  ring

theorem manager.distance_to_lane_eq (lane : agv.Lane) (graph : agv.Graph)
    (c : Vector2d) (entry_wp exit_wp : agv.Waypoint)
    (hentry : graph.get_waypoint lane.entry.waypoint_index = some entry_wp)
    (hexit : graph.get_waypoint lane.exit.waypoint_index = some exit_wp)
    (hne : entry_wp.get_location ≠ exit_wp.get_location) :
    manager.distance_to_lane lane graph c =
      some (|(exit_wp.get_location - entry_wp.get_location).cross
          (c - entry_wp.get_location)| /
        (exit_wp.get_location - entry_wp.get_location).norm) := by
  simp only [manager.distance_to_lane, hentry, hexit]
  rw [Vector2d.perpendicular_norm _ _ (Vector2d.sq_pos_of_ne _ _ hne)]

theorem manager.is_within_lane_cases (lane : agv.Lane) (graph : agv.Graph)
    (c : Vector2d) (entry_wp exit_wp : agv.Waypoint)
    (hentry : graph.get_waypoint lane.entry.waypoint_index = some entry_wp)
    (hexit : graph.get_waypoint lane.exit.waypoint_index = some exit_wp)
    (hne : entry_wp.get_location ≠ exit_wp.get_location) :
    (manager.is_within_lane lane graph c = some true ∧
      (0 ≤ (c - entry_wp.get_location).dot (exit_wp.get_location - entry_wp.get_location) ∧
        (c - entry_wp.get_location).dot (exit_wp.get_location - entry_wp.get_location) ≤
          (exit_wp.get_location - entry_wp.get_location).x ^ 2 +
            (exit_wp.get_location - entry_wp.get_location).y ^ 2)) ∨
    (manager.is_within_lane lane graph c = some false ∧
      ¬ (0 ≤ (c - entry_wp.get_location).dot (exit_wp.get_location - entry_wp.get_location) ∧
        (c - entry_wp.get_location).dot (exit_wp.get_location - entry_wp.get_location) ≤
          (exit_wp.get_location - entry_wp.get_location).x ^ 2 +
            (exit_wp.get_location - entry_wp.get_location).y ^ 2)) := by
  have hpos := Vector2d.norm_pos_of_ne _ _ hne
  have hcond : (0 ≤ (c - entry_wp.get_location).dot
          ((exit_wp.get_location - entry_wp.get_location) /
            (exit_wp.get_location - entry_wp.get_location).norm) ∧
        (c - entry_wp.get_location).dot
          ((exit_wp.get_location - entry_wp.get_location) /
            (exit_wp.get_location - entry_wp.get_location).norm) ≤
          (exit_wp.get_location - entry_wp.get_location).norm) ↔
      (0 ≤ (c - entry_wp.get_location).dot (exit_wp.get_location - entry_wp.get_location) ∧
        (c - entry_wp.get_location).dot (exit_wp.get_location - entry_wp.get_location) ≤
          (exit_wp.get_location - entry_wp.get_location).x ^ 2 +
            (exit_wp.get_location - entry_wp.get_location).y ^ 2) := by
    rw [Vector2d.dot_unit, le_div_iff₀ hpos, zero_mul, div_le_iff₀ hpos, ← sq,
      Vector2d.norm_sq]
  simp only [manager.is_within_lane, hentry, hexit, ge_iff_le]
  split_ifs with h
  · exact Or.inl ⟨rfl, hcond.1 h⟩
  · exact Or.inr ⟨rfl, fun h2 => h (hcond.2 h2)⟩

/-- C28 (lane reversal symmetry): for a lane whose ends are waypoints of the graph at
different positions, `distance_to_lane` and `is_within_lane` give the same result
for the lane and for the lane taken from its exit to its entry. -/
theorem lane_reversal_symmetry (lane : agv.Lane) (graph : agv.Graph)
    (c : Vector2d) (entry_wp exit_wp : agv.Waypoint)
    (hentry : graph.get_waypoint lane.entry.waypoint_index = some entry_wp)
    (hexit : graph.get_waypoint lane.exit.waypoint_index = some exit_wp)
    (hne : entry_wp.get_location ≠ exit_wp.get_location) :
    manager.distance_to_lane lane graph c =
      manager.distance_to_lane ⟨lane.exit, lane.entry⟩ graph c ∧
    manager.is_within_lane lane graph c =
      manager.is_within_lane ⟨lane.exit, lane.entry⟩ graph c := by
  constructor
  · rw [manager.distance_to_lane_eq lane graph c entry_wp exit_wp hentry hexit hne,
      manager.distance_to_lane_eq ⟨lane.exit, lane.entry⟩ graph c exit_wp entry_wp hexit
        hentry (Ne.symm hne),
      Vector2d.norm_sub_comm entry_wp.get_location exit_wp.get_location]
    congr 2
    rw [← abs_neg]
    congr 1
    simp only [Vector2d.cross, Vector2d.sub_x, Vector2d.sub_y]
    ring
  · have hsame : ∀ a b : Vector2d,
        (c - a).dot (b - a) = (b - a).x ^ 2 + (b - a).y ^ 2 - (c - b).dot (a - b) := by
      intro a b
      simp only [Vector2d.dot, Vector2d.sub_x, Vector2d.sub_y]
      ring
    have hs : (entry_wp.get_location - exit_wp.get_location).x ^ 2 +
        (entry_wp.get_location - exit_wp.get_location).y ^ 2 =
        (exit_wp.get_location - entry_wp.get_location).x ^ 2 +
          (exit_wp.get_location - entry_wp.get_location).y ^ 2 := by
      simp only [Vector2d.sub_x, Vector2d.sub_y]
      ring
    rcases manager.is_within_lane_cases lane graph c entry_wp exit_wp hentry hexit hne with
      ⟨h1, hc1⟩ | ⟨h1, hc1⟩ <;>
    rcases manager.is_within_lane_cases ⟨lane.exit, lane.entry⟩ graph c exit_wp entry_wp
      hexit hentry (Ne.symm hne) with ⟨h2, hc2⟩ | ⟨h2, hc2⟩
    · rw [h1, h2]
    · exfalso
      apply hc2
      rw [hs]
      rw [hsame entry_wp.get_location exit_wp.get_location] at hc1
      constructor <;> linarith [hc1.1, hc1.2]
    · exfalso
      apply hc1
      rw [hsame exit_wp.get_location entry_wp.get_location, hs] at hc2
      constructor <;> linarith [hc2.1, hc2.2]
    · rw [h1, h2]

/-- C28, witness: the lanes between waypoints 0 and 1 of the test graph, in both
directions, and the coordinate (3, 4). -/
theorem lane_reversal_symmetry_witness :
    manager.test_graph.get_waypoint 0 = some ⟨"test_level", ⟨0, 0⟩⟩ ∧
    manager.test_graph.get_waypoint 1 = some ⟨"test_level", ⟨10, 0⟩⟩ ∧
    (⟨0, 0⟩ : Vector2d) ≠ ⟨10, 0⟩ ∧
    manager.distance_to_lane ⟨⟨0⟩, ⟨1⟩⟩ manager.test_graph ⟨3, 4⟩ =
      manager.distance_to_lane ⟨⟨1⟩, ⟨0⟩⟩ manager.test_graph ⟨3, 4⟩ ∧
    manager.is_within_lane ⟨⟨0⟩, ⟨1⟩⟩ manager.test_graph ⟨3, 4⟩ =
      manager.is_within_lane ⟨⟨1⟩, ⟨0⟩⟩ manager.test_graph ⟨3, 4⟩ :=
  ⟨rfl, rfl, manager.test_lane_ends,
    lane_reversal_symmetry ⟨⟨0⟩, ⟨1⟩⟩ manager.test_graph ⟨3, 4⟩
      ⟨"test_level", ⟨0, 0⟩⟩ ⟨"test_level", ⟨10, 0⟩⟩ rfl rfl manager.test_lane_ends⟩

theorem Vector2d.sub_zero_smul (p_l d : Vector2d) : p_l - (0 : ℝ) * d = p_l := by
  apply Vector2d.eq_of_coordinates
  · simp [Vector2d.sub_x, Vector2d.smul_x]
  · simp [Vector2d.sub_y, Vector2d.smul_y]

theorem Vector2d.sub_one_smul (c p0 p1 : Vector2d) :
    (c - p0) - (1 : ℝ) * (p1 - p0) = c - p1 := by
  apply Vector2d.eq_of_coordinates
  · simp only [Vector2d.sub_x, Vector2d.smul_x]
    ring
  · simp only [Vector2d.sub_y, Vector2d.smul_y]
    ring

/-- C29 (lane distance and end distances): for a lane whose ends are waypoints of
the graph at different positions, the square of `distance_to_lane` plus the square
of the projection of `c - p0` on the lane direction is the square of
`distance_to_waypoint` of the entry waypoint; `distance_to_lane` is at most
`distance_to_waypoint` of the entry waypoint and at most that of the exit waypoint,
and it is 0 when `c` is at either end. -/
theorem lane_distance_bounded (lane : agv.Lane) (graph : agv.Graph)
    (c : Vector2d) (entry_wp exit_wp : agv.Waypoint)
    (hentry : graph.get_waypoint lane.entry.waypoint_index = some entry_wp)
    (hexit : graph.get_waypoint lane.exit.waypoint_index = some exit_wp)
    (hne : entry_wp.get_location ≠ exit_wp.get_location) :
    (∃ distance, manager.distance_to_lane lane graph c = some distance ∧
      distance ^ 2 +
          ((c - entry_wp.get_location).dot
            ((exit_wp.get_location - entry_wp.get_location) /
              (exit_wp.get_location - entry_wp.get_location).norm)) ^ 2 =
        manager.distance_to_waypoint entry_wp c ^ 2 ∧
      distance ≤ manager.distance_to_waypoint entry_wp c ∧
      distance ≤ manager.distance_to_waypoint exit_wp c) ∧
    manager.distance_to_lane lane graph entry_wp.get_location = some 0 ∧
    manager.distance_to_lane lane graph exit_wp.get_location = some 0 := by
  have hd := Vector2d.sq_pos_of_ne _ _ hne
  have hs0 : (exit_wp.get_location - entry_wp.get_location).x ^ 2 +
      (exit_wp.get_location - entry_wp.get_location).y ^ 2 ≠ 0 := ne_of_gt hd
  refine ⟨⟨_, manager.distance_to_lane_eq lane graph c entry_wp exit_wp hentry hexit hne,
    ?_, ?_, ?_⟩, ?_, ?_⟩
  · rw [Vector2d.perpendicular_eq_sqrt, Real.sq_sqrt (div_nonneg (sq_nonneg _) (le_of_lt hd)),
      Vector2d.dot_unit, div_pow, Vector2d.norm_sq, manager.distance_to_waypoint,
      Vector2d.norm_sub_comm, Vector2d.norm_sq]
    simp only [Vector2d.cross, Vector2d.dot]
    field_simp
    ring
  · have h := Vector2d.perpendicular_le (c - entry_wp.get_location)
      (exit_wp.get_location - entry_wp.get_location) hd 0
    rw [Vector2d.sub_zero_smul] at h
    rw [manager.distance_to_waypoint, Vector2d.norm_sub_comm entry_wp.get_location c]
    exact h
  · have h := Vector2d.perpendicular_le (c - entry_wp.get_location)
      (exit_wp.get_location - entry_wp.get_location) hd 1
    rw [Vector2d.sub_one_smul] at h
    rw [manager.distance_to_waypoint, Vector2d.norm_sub_comm exit_wp.get_location c]
    exact h
  · rw [manager.distance_to_lane_eq lane graph _ entry_wp exit_wp hentry hexit hne]
    simp [Vector2d.cross, Vector2d.sub_x, Vector2d.sub_y]
  · rw [manager.distance_to_lane_eq lane graph _ entry_wp exit_wp hentry hexit hne]
    have hcross : (exit_wp.get_location - entry_wp.get_location).cross
        (exit_wp.get_location - entry_wp.get_location) = 0 := by
      simp only [Vector2d.cross]
      ring
    rw [hcross]
    simp

/-- C29, witness: the lane from waypoint 0 to waypoint 1 of the test graph and the
coordinate (3, 4): the lane distance is 0 at both ends. -/
theorem lane_distance_bounded_witness :
    manager.test_graph.get_waypoint 0 = some ⟨"test_level", ⟨0, 0⟩⟩ ∧
    manager.test_graph.get_waypoint 1 = some ⟨"test_level", ⟨10, 0⟩⟩ ∧
    (⟨0, 0⟩ : Vector2d) ≠ ⟨10, 0⟩ ∧
    manager.distance_to_lane ⟨⟨0⟩, ⟨1⟩⟩ manager.test_graph ⟨0, 0⟩ = some 0 ∧
    manager.distance_to_lane ⟨⟨0⟩, ⟨1⟩⟩ manager.test_graph ⟨10, 0⟩ = some 0 :=
  ⟨rfl, rfl, manager.test_lane_ends,
    (lane_distance_bounded ⟨⟨0⟩, ⟨1⟩⟩ manager.test_graph ⟨3, 4⟩
      ⟨"test_level", ⟨0, 0⟩⟩ ⟨"test_level", ⟨10, 0⟩⟩ rfl rfl manager.test_lane_ends).2⟩

/-- C30 (line distance and segment distance): for a lane whose ends are waypoints of
the graph at different positions `p0` and `p1`: when `is_within_lane` is true,
`distance_to_lane` is the least distance from `c` to a point `p0 + t (p1 - p0)`,
`0 <= t <= 1`, of the segment; when it is false, the least distance from `c` to a
point of the segment, which is taken at one of the ends, is strictly greater than
`distance_to_lane`. -/
theorem segment_distance (lane : agv.Lane) (graph : agv.Graph)
    (c : Vector2d) (entry_wp exit_wp : agv.Waypoint)
    (hentry : graph.get_waypoint lane.entry.waypoint_index = some entry_wp)
    (hexit : graph.get_waypoint lane.exit.waypoint_index = some exit_wp)
    (hne : entry_wp.get_location ≠ exit_wp.get_location) :
    ∃ distance, manager.distance_to_lane lane graph c = some distance ∧
      (manager.is_within_lane lane graph c = some true →
        (∀ t : ℝ, 0 ≤ t → t ≤ 1 →
          distance ≤ (c - (entry_wp.get_location +
            t * (exit_wp.get_location - entry_wp.get_location))).norm) ∧
        ∃ t : ℝ, 0 ≤ t ∧ t ≤ 1 ∧
          (c - (entry_wp.get_location +
            t * (exit_wp.get_location - entry_wp.get_location))).norm = distance) ∧
      (manager.is_within_lane lane graph c = some false →
        ∃ least : ℝ, 0 ≤ least ∧ least ≤ 1 ∧
          (∀ t : ℝ, 0 ≤ t → t ≤ 1 →
            (c - (entry_wp.get_location +
              least * (exit_wp.get_location - entry_wp.get_location))).norm ≤
            (c - (entry_wp.get_location +
              t * (exit_wp.get_location - entry_wp.get_location))).norm) ∧
          distance < (c - (entry_wp.get_location +
            least * (exit_wp.get_location - entry_wp.get_location))).norm) := by
  have hd := Vector2d.sq_pos_of_ne _ _ hne
  have hs0 : (exit_wp.get_location - entry_wp.get_location).x ^ 2 +
      (exit_wp.get_location - entry_wp.get_location).y ^ 2 ≠ 0 := ne_of_gt hd
  refine ⟨_, manager.distance_to_lane_eq lane graph c entry_wp exit_wp hentry hexit hne,
    ?_, ?_⟩
  · intro hwithin
    have hcond : 0 ≤ (c - entry_wp.get_location).dot
          (exit_wp.get_location - entry_wp.get_location) ∧
        (c - entry_wp.get_location).dot (exit_wp.get_location - entry_wp.get_location) ≤
          (exit_wp.get_location - entry_wp.get_location).x ^ 2 +
            (exit_wp.get_location - entry_wp.get_location).y ^ 2 := by
      rcases manager.is_within_lane_cases lane graph c entry_wp exit_wp hentry hexit hne with
        ⟨_, hc⟩ | ⟨hfalse, _⟩
      · exact hc
      · rw [hfalse] at hwithin
        simp at hwithin
    refine ⟨?_, ?_⟩
    · intro t _ _
      rw [Vector2d.sub_add_smul]
      exact Vector2d.perpendicular_le _ _ hd t
    · refine ⟨(c - entry_wp.get_location).dot (exit_wp.get_location - entry_wp.get_location) /
        ((exit_wp.get_location - entry_wp.get_location).x ^ 2 +
          (exit_wp.get_location - entry_wp.get_location).y ^ 2), ?_, ?_, ?_⟩
      · exact div_nonneg hcond.1 (le_of_lt hd)
      · rw [div_le_one hd]
        exact hcond.2
      · rw [Vector2d.sub_add_smul]
        exact Vector2d.perpendicular_attained _ _ hd
  · intro hwithin
    have hcond : ¬ (0 ≤ (c - entry_wp.get_location).dot
          (exit_wp.get_location - entry_wp.get_location) ∧
        (c - entry_wp.get_location).dot (exit_wp.get_location - entry_wp.get_location) ≤
          (exit_wp.get_location - entry_wp.get_location).x ^ 2 +
            (exit_wp.get_location - entry_wp.get_location).y ^ 2) := by
      rcases manager.is_within_lane_cases lane graph c entry_wp exit_wp hentry hexit hne with
        ⟨htrue, _⟩ | ⟨_, hc⟩
      · rw [htrue] at hwithin
        simp at hwithin
      · exact hc
    rw [Vector2d.perpendicular_eq_sqrt]
    by_cases hneg : (c - entry_wp.get_location).dot
        (exit_wp.get_location - entry_wp.get_location) < 0
    · refine ⟨0, le_refl 0, zero_le_one, ?_, ?_⟩
      · intro t ht0 _
        rw [Vector2d.sub_add_smul, Vector2d.sub_add_smul, Vector2d.norm_line _ _ hd,
          Vector2d.norm_line _ _ hd]
        apply Real.sqrt_le_sqrt
        have hts := mul_nonneg ht0 (le_of_lt hd)
        have hsq : ((c - entry_wp.get_location).dot
              (exit_wp.get_location - entry_wp.get_location) -
            0 * ((exit_wp.get_location - entry_wp.get_location).x ^ 2 +
              (exit_wp.get_location - entry_wp.get_location).y ^ 2)) ^ 2 ≤
            ((c - entry_wp.get_location).dot
              (exit_wp.get_location - entry_wp.get_location) -
            t * ((exit_wp.get_location - entry_wp.get_location).x ^ 2 +
              (exit_wp.get_location - entry_wp.get_location).y ^ 2)) ^ 2 := by
          nlinarith
        have hdiv := div_le_div_of_nonneg_right hsq (le_of_lt hd)
        linarith
      · rw [Vector2d.sub_add_smul, Vector2d.norm_line _ _ hd]
        apply Real.sqrt_lt_sqrt (div_nonneg (sq_nonneg _) (le_of_lt hd))
        have hpos : 0 < ((c - entry_wp.get_location).dot
              (exit_wp.get_location - entry_wp.get_location) -
            0 * ((exit_wp.get_location - entry_wp.get_location).x ^ 2 +
              (exit_wp.get_location - entry_wp.get_location).y ^ 2)) ^ 2 /
            ((exit_wp.get_location - entry_wp.get_location).x ^ 2 +
              (exit_wp.get_location - entry_wp.get_location).y ^ 2) := by
          apply div_pos _ hd
          rw [zero_mul, sub_zero]
          exact sq_pos_of_neg hneg
        linarith
    · have hbig : (exit_wp.get_location - entry_wp.get_location).x ^ 2 +
          (exit_wp.get_location - entry_wp.get_location).y ^ 2 <
          (c - entry_wp.get_location).dot (exit_wp.get_location - entry_wp.get_location) := by
        by_contra hle
        exact hcond ⟨not_lt.1 hneg, not_lt.1 hle⟩
      refine ⟨1, zero_le_one, le_refl 1, ?_, ?_⟩
      · intro t _ ht1
        rw [Vector2d.sub_add_smul, Vector2d.sub_add_smul, Vector2d.norm_line _ _ hd,
          Vector2d.norm_line _ _ hd]
        apply Real.sqrt_le_sqrt
        have hts := mul_nonneg (sub_nonneg.2 ht1) (le_of_lt hd)
        have hsq : ((c - entry_wp.get_location).dot
              (exit_wp.get_location - entry_wp.get_location) -
            1 * ((exit_wp.get_location - entry_wp.get_location).x ^ 2 +
              (exit_wp.get_location - entry_wp.get_location).y ^ 2)) ^ 2 ≤
            ((c - entry_wp.get_location).dot
              (exit_wp.get_location - entry_wp.get_location) -
            t * ((exit_wp.get_location - entry_wp.get_location).x ^ 2 +
              (exit_wp.get_location - entry_wp.get_location).y ^ 2)) ^ 2 := by
          nlinarith
        have hdiv := div_le_div_of_nonneg_right hsq (le_of_lt hd)
        linarith
      · rw [Vector2d.sub_add_smul, Vector2d.norm_line _ _ hd]
        apply Real.sqrt_lt_sqrt (div_nonneg (sq_nonneg _) (le_of_lt hd))
        have hpos : 0 < ((c - entry_wp.get_location).dot
              (exit_wp.get_location - entry_wp.get_location) -
            1 * ((exit_wp.get_location - entry_wp.get_location).x ^ 2 +
              (exit_wp.get_location - entry_wp.get_location).y ^ 2)) ^ 2 /
            ((exit_wp.get_location - entry_wp.get_location).x ^ 2 +
              (exit_wp.get_location - entry_wp.get_location).y ^ 2) := by
          apply div_pos _ hd
          apply pow_pos
          linarith
        linarith

/-- C30, witness: the lane from waypoint 0 to waypoint 1 of the test graph and the
coordinate (3, 4). -/
theorem segment_distance_witness :
    manager.test_graph.get_waypoint 0 = some ⟨"test_level", ⟨0, 0⟩⟩ ∧
    manager.test_graph.get_waypoint 1 = some ⟨"test_level", ⟨10, 0⟩⟩ ∧
    (⟨0, 0⟩ : Vector2d) ≠ ⟨10, 0⟩ ∧
    ∃ distance, manager.distance_to_lane ⟨⟨0⟩, ⟨1⟩⟩ manager.test_graph ⟨3, 4⟩ =
      some distance :=
  ⟨rfl, rfl, manager.test_lane_ends,
    (segment_distance ⟨⟨0⟩, ⟨1⟩⟩ manager.test_graph ⟨3, 4⟩
      ⟨"test_level", ⟨0, 0⟩⟩ ⟨"test_level", ⟨10, 0⟩⟩ rfl rfl manager.test_lane_ends).imp
      fun _ h => h.1⟩

end free_fleet
